import Mathlib

/-!
Verification of the timeseries retrieval core of
`CurrencyExchangeAPIRetriever.py` (class `CurrencyExchangeAPIRetriever`).

The embedding models:
* Python `dict` values as association lists with Python's insert-or-overwrite
  update semantics (`pySet`, `pyUpdate`);
* `datetime.date` values as `Date` records, `datetime.strptime(_, "%Y-%m-%d")`
  as `parseDate` (mirroring CPython's `_strptime` regexes: `%Y` is exactly four
  digits, `%m` matches `1[0-2]|0[1-9]|[1-9]`, `%d` matches
  `3[01]|[12]\d|0[1-9]|[1-9]`, then the `datetime` constructor validates the
  day against the month length), and `strftime("%Y-%m-%d")` as `fmtDate`
  (zero-padded; for years below 1000 CPython's output is platform dependent,
  so all general theorems restrict years to 1000..9999);
* `dateutil.relativedelta(dt1, dt2).years` as `pyYearDiff` (the adjustment
  `while` loop of the `relativedelta` constructor runs at most one iteration,
  proved in `rdMonths_adjust_stops`, so it is embedded as a single conditional
  step);
* `date - relativedelta(years=n)` as `subYears` (day clamped to the month
  length of the target month, as in `relativedelta.__add__`);
* the remote Fixer API as an oracle `TSRequest → TSResponse` handed to each
  operation; every issued HTTP request is recorded in a log (the URL of the
  real code is determined by the four interpolated parameters, which is what a
  `TSRequest` stores; absent (`None`) parameters are `none`);
* `raise Exception(...)` as `Except.error` with a `PyErr` constructor per
  raise site: `invalidArgument` for the two argument-check raises,
  `upstreamError` (carrying the HTTP status embedded in the message of the
  real exception) for the status-code raises, `valueError` for `int()` /
  `strptime` failures;
* `datetime.datetime.today()` as an explicit `today : Date` parameter
  (the source reads the clock at call time).

JSON timeseries response bodies are modelled as `TSBody ρ`: the three fields
the code reads (`start_date`, `end_date`, `rates`), plus `extra`, the list of
all remaining fields of the JSON object (e.g. `base`, `timestamp`,
`success`), kept abstract. Per-date rate rows are an opaque type `ρ`.
-/

/-! ### Python dicts -/

abbrev PyDict (ρ : Type) := List (String × ρ)

/-- `d[k] = v` on a Python dict: overwrite in place if the key exists,
append otherwise. -/
def pySet {ρ : Type} : PyDict ρ → String → ρ → PyDict ρ
  | [], k, v => [(k, v)]
  | (k', v') :: rest, k, v =>
    if k' = k then (k', v) :: rest else (k', v') :: pySet rest k v

/-- `d.get(k)` on a Python dict. -/
def pyGet? {ρ : Type} : PyDict ρ → String → Option ρ
  | [], _ => none
  | (k', v') :: rest, k => if k' = k then some v' else pyGet? rest k

/-- `d.update(other)` on Python dicts: fold `pySet` over `other` in order. -/
def pyUpdate {ρ : Type} (d other : PyDict ρ) : PyDict ρ :=
  other.foldl (fun acc kv => pySet acc kv.1 kv.2) d

/-! ### Dates -/

structure Date where
  year : Int
  month : Nat
  day : Nat
deriving DecidableEq, Repr

/-- `calendar.isleap`. -/
def isLeap (y : Int) : Bool :=
  y % 4 == 0 && (y % 100 != 0 || y % 400 == 0)

/-- `calendar.monthrange(y, m)[1]` for `m` in 1..12. -/
def monthLen (y : Int) (m : Nat) : Nat :=
  if m = 2 then (if isLeap y then 29 else 28)
  else if m = 4 ∨ m = 6 ∨ m = 9 ∨ m = 11 then 30
  else 31

/-- The dates representable as `datetime.date` values (with year unbounded;
theorems add year bounds where the source's formatting matters). -/
def Date.Valid (d : Date) : Prop :=
  1 ≤ d.month ∧ d.month ≤ 12 ∧ 1 ≤ d.day ∧ d.day ≤ monthLen d.year d.month

instance (d : Date) : Decidable d.Valid := by unfold Date.Valid; infer_instance

/-- `datetime` comparison: lexicographic on (year, month, day). -/
def Date.blt (a b : Date) : Bool :=
  if a.year < b.year then true
  else if b.year < a.year then false
  else if a.month < b.month then true
  else if b.month < a.month then false
  else decide (a.day < b.day)

/-- Adding `m` months to a date, day clamped to the target month's length:
the effect of `relativedelta.__add__` for a pure years/months delta
(`_set_months` splits a month count into years and a remainder of magnitude
at most 11, and `__add__` applies both with a single month wrap, which is
exactly total-month-index arithmetic with one final day clamp). -/
def addMonths (d : Date) (m : Int) : Date :=
  let t : Int := 12 * d.year + ((d.month : Int) - 1) + m
  let y := t / 12
  let mo := (t % 12).toNat + 1
  { year := y, month := mo, day := min d.day (monthLen y mo) }

/-- `d - relativedelta(years=n)`: year decreases, day clamped. -/
def subYears (d : Date) (n : Nat) : Date :=
  { year := d.year - n, month := d.month
    day := min d.day (monthLen (d.year - n) d.month) }

/-- The month delta computed by the `relativedelta(dt1, dt2)` constructor:
`months = 12*(dt1.year - dt2.year) + (dt1.month - dt2.month)`, followed by the
overshoot-adjustment `while` loop, which runs at most one iteration
(`rdMonths_adjust_stops`) and is therefore a single conditional step here. -/
def rdMonths (d1 d2 : Date) : Int :=
  let m0 : Int := 12 * (d1.year - d2.year) + ((d1.month : Int) - d2.month)
  if Date.blt d1 d2 then
    (if Date.blt (addMonths d2 m0) d1 then m0 + 1 else m0)
  else
    (if Date.blt d1 (addMonths d2 m0) then m0 - 1 else m0)

/-- `relativedelta._set_months`: the `.years` component extracted from a month
count (`0` when the magnitude is at most 11, otherwise the sign-preserving
quotient by 12). -/
def yearsOfMonths (m : Int) : Int :=
  if m.natAbs ≤ 11 then 0
  else if m < 0 then -((m.natAbs / 12 : Nat) : Int) else ((m.natAbs / 12 : Nat) : Int)

/-- `relativedelta(dt1, dt2).years`. -/
def pyYearDiff (d1 d2 : Date) : Int := yearsOfMonths (rdMonths d1 d2)

/-! ### Formatting and parsing of `YYYY-MM-DD` strings -/

/-- Two zero-padded decimal digits (`%m`, `%d`). -/
def dig2 (n : Nat) : List Char := [Nat.digitChar (n / 10), Nat.digitChar (n % 10)]

/-- Four zero-padded decimal digits (`%Y` for years 0..9999). -/
def dig4 (n : Nat) : List Char := dig2 (n / 100) ++ dig2 (n % 100)

/-- `strftime("%Y-%m-%d")`. -/
def fmtDate (d : Date) : String :=
  ⟨dig4 d.year.toNat ++ '-' :: (dig2 d.month ++ '-' :: dig2 d.day)⟩

/-- Python string `<`: lexicographic comparison by code point, a proper
prefix comparing less. -/
def pyStrLtL : List Char → List Char → Bool
  | [], [] => false
  | [], _ :: _ => true
  | _ :: _, [] => false
  | a :: as, b :: bs => if a < b then true else if b < a then false else pyStrLtL as bs

def pyStrLt (s t : String) : Bool := pyStrLtL s.data t.data

/-- The `%m` regex `1[0-2]|0[1-9]|[1-9]` of CPython's `_strptime`. -/
def parseMonth : List Char → Option (Nat × List Char)
  | '1' :: c :: rest =>
    if '0' ≤ c ∧ c ≤ '2' then some (10 + (c.toNat - 48), rest)
    else some (1, c :: rest)
  | '0' :: c :: rest =>
    if '1' ≤ c ∧ c ≤ '9' then some (c.toNat - 48, rest) else none
  | c :: rest =>
    if '1' ≤ c ∧ c ≤ '9' then some (c.toNat - 48, rest) else none
  | [] => none

/-- The `%d` regex `3[01]|[12]\d|0[1-9]|[1-9]` of CPython's `_strptime`. -/
def parseDay : List Char → Option (Nat × List Char)
  | '3' :: c :: rest =>
    if c = '0' ∨ c = '1' then some (30 + (c.toNat - 48), rest)
    else some (3, c :: rest)
  | '0' :: c :: rest =>
    if '1' ≤ c ∧ c ≤ '9' then some (c.toNat - 48, rest) else none
  | c :: c2 :: rest =>
    if ('1' ≤ c ∧ c ≤ '2') ∧ c2.isDigit then
      some (10 * (c.toNat - 48) + (c2.toNat - 48), rest)
    else if '1' ≤ c ∧ c ≤ '9' then some (c.toNat - 48, c2 :: rest) else none
  | [c] => if '1' ≤ c ∧ c ≤ '9' then some (c.toNat - 48, []) else none
  | [] => none

/-- The `%Y` regex: exactly four decimal digits. -/
def parseYear4 : List Char → Option (Nat × List Char)
  | a :: b :: c :: d :: rest =>
    if a.isDigit ∧ b.isDigit ∧ c.isDigit ∧ d.isDigit then
      some (1000 * (a.toNat - 48) + 100 * (b.toNat - 48) + 10 * (c.toNat - 48)
        + (d.toNat - 48), rest)
    else none
  | _ => none

/-- `datetime.datetime.strptime(s, "%Y-%m-%d")`: the `_strptime` regex must
match the whole string, then the `datetime` constructor validates year ≥ 1
(MINYEAR) and the day against the month length. -/
def parseDate (s : String) : Option Date :=
  match parseYear4 s.data with
  | none => none
  | some (y, r1) =>
    match r1 with
    | '-' :: r2 =>
      match parseMonth r2 with
      | none => none
      | some (m, r3) =>
        match r3 with
        | '-' :: r4 =>
          match parseDay r4 with
          | none => none
          | some (d, r5) =>
            match r5 with
            | [] =>
              if 1 ≤ y ∧ d ≤ monthLen y m then some ⟨y, m, d⟩ else none
            | _ => none
        | _ => none
    | _ => none

/-! ### The API client operations -/

/-- One `timeseries` HTTP request, identified by the four parameters
interpolated into the URL (a `none` parameter is interpolated as the string
`None` by the f-string). -/
structure TSRequest where
  start_date : Option String
  end_date : Option String
  base : Option String
  symbols : Option String
deriving DecidableEq, Repr

/-- A parsed timeseries JSON body: the fields the code reads, plus `extra`,
all remaining fields of the JSON object (name, abstract value). -/
structure TSBody (ρ : Type) where
  start_date : String
  end_date : String
  rates : PyDict ρ
  extra : List (String × String)
deriving DecidableEq, Repr

/-- The keys of a timeseries JSON body read as a Python dict. -/
def TSBody.keys {ρ : Type} (b : TSBody ρ) : List String :=
  "start_date" :: "end_date" :: "rates" :: b.extra.map Prod.fst

structure TSResponse (ρ : Type) where
  status : Nat
  body : TSBody ρ
deriving DecidableEq, Repr

abbrev TSApi (ρ : Type) := TSRequest → TSResponse ρ

inductive PyErr where
  | invalidArgument : String → PyErr
  | upstreamError : Nat → PyErr
  | valueError : PyErr
deriving DecidableEq, Repr

/-- Python truthiness of an optional string argument: `None` and the empty
string are falsy. -/
def pyTruthy : Option String → Bool
  | none => false
  | some s => !(s == "")

/-- `_retrieve_timeseries_of_exchange_rates`: issues the request (appending
it to the log), then raises on a non-200 status, else returns the parsed
body. There is no argument validation. -/
def retrieve_timeseries_single {ρ : Type} (api : TSApi ρ) (log : List TSRequest)
    (start_date end_date base symbols : Option String) :
    Except PyErr (TSBody ρ) × List TSRequest :=
  let req : TSRequest := ⟨start_date, end_date, base, symbols⟩
  let resp := api req
  if resp.status ≠ 200 then (.error (.upstreamError resp.status), log ++ [req])
  else (.ok resp.body, log ++ [req])

/-- One `latest` HTTP request. -/
structure LatestRequest where
  base : Option String
  symbols : Option String
deriving DecidableEq, Repr

structure LatestResponse (β : Type) where
  status : Nat
  body : β

/-- `retrieve_latest_exchange_rates`: `all([symbols, base])` guards the
request; the parsed body (a type parameter, returned as-is) comes back on a
200 status. -/
def retrieve_latest_exchange_rates {β : Type} (api : LatestRequest → LatestResponse β)
    (base symbols : Option String) : Except PyErr β × List LatestRequest :=
  if pyTruthy symbols && pyTruthy base then
    let req : LatestRequest := ⟨base, symbols⟩
    let resp := api req
    if resp.status ≠ 200 then (.error (.upstreamError resp.status), [req])
    else (.ok resp.body, [req])
  else
    (.error (.invalidArgument
      "Either base or symbols argument was None. Please pass both arguments."), [])

/-! ### `get_timeseries_of_exchange_rates` -/

/-- `valid_periods` class attribute (documented but never consulted by
`get_timeseries_of_exchange_rates`). -/
def valid_periods : List (Option String) :=
  [none, some "1y", some "2y", some "3y", some "5y"]

/-- `s[0]` on a non-empty Python string. -/
def strFirst (s : String) : Char := s.get ⟨0⟩

/-- Step 1 of `get_timeseries_of_exchange_rates`: the number of requests.
`int(period[0])` is the integer value of the period's first character
(raising `ValueError` on a non-digit); for an explicit pair it is
`relativedelta(end, start).years + 1` (either `strptime` may raise). -/
def numberOfYears (start_date end_date period : Option String) : Except PyErr Int :=
  if pyTruthy period then
    let c := strFirst (period.getD "")
    if c.isDigit then .ok ((c.toNat - 48 : Nat) : Int) else .error .valueError
  else if pyTruthy start_date && pyTruthy end_date then
    match parseDate (end_date.getD ""), parseDate (start_date.getD "") with
    | some e, some s => .ok (pyYearDiff e s + 1)
    | _, _ => .error .valueError
  else
    .error (.invalidArgument
      "Please provide valid arguments. Provide a period or both start and end date.")

/-- Sub-window boundaries in period mode, iteration `k` (lines 120-121):
`end = today - k years`, `start = today - (k+1) years`. -/
def windowAtPeriod (today : Date) (k : Nat) : String × String :=
  (fmtDate (subYears today (k + 1)), fmtDate (subYears today k))

/-- Sub-window boundaries in explicit-pair mode, iteration `k`
(lines 123-128): anchored at the parsed end date, with the start string
clamped up to the raw `start_date` argument when it compares smaller as a
Python string. -/
def windowAtExplicit (endD : Date) (rawStart : String) (k : Nat) : String × String :=
  let startReq := fmtDate (subYears endD (k + 1))
  (if pyStrLt startReq rawStart then rawStart else startReq,
   fmtDate (subYears endD k))

def mkReq (w : String × String) (base symbols : Option String) : TSRequest :=
  ⟨some w.1, some w.2, base, symbols⟩

/-- The `for year in range(number_of_years)` loop (lines 118-130): issue one
sub-request per iteration, abort on the first failure, accumulate the parsed
bodies in fetch order (most recent window first). -/
def multiLoop {ρ : Type} (api : TSApi ρ) (w : Nat → String × String)
    (base symbols : Option String) :
    Nat → Nat → List (TSBody ρ) → List TSRequest →
    Except PyErr (List (TSBody ρ)) × List TSRequest
  | _, 0, acc, log => (.ok acc, log)
  | k, rem + 1, acc, log =>
    match retrieve_timeseries_single api log (some (w k).1) (some (w k).2) base symbols with
    | (.ok body, log') => multiLoop api w base symbols (k + 1) rem (acc ++ [body]) log'
    | (.error e, log') => (.error e, log')

/-- The post-processing of lines 131-140: `start_date` from the last-fetched
(oldest) body, `end_date` from the first-fetched (newest) body, and the
`rates` dicts applied oldest-to-newest through `dict.update`. Only called on
the non-empty fetch list of the multi-window path; the empty case returns a
junk value. -/
def mergeResults {ρ : Type} (data : List (TSBody ρ)) : TSBody ρ :=
  { start_date := (data.getLastD ⟨"", "", [], []⟩).start_date
    end_date := (data.headD ⟨"", "", [], []⟩).end_date
    rates :=
      match data.reverse with
      | [] => []
      | x :: xs => xs.foldl (fun acc it => pyUpdate acc it.rates) x.rates
    extra := [] }

/-- `get_timeseries_of_exchange_rates` (lines 79-140). In the explicit-pair
multi-window branch the source re-parses `end_date` inside the loop; both
parses succeeded in step 1, so the pre-parsed value is reused here (the
`getD` fallbacks on that path are never taken). -/
def get_timeseries_of_exchange_rates {ρ : Type} (api : TSApi ρ) (today : Date)
    (start_date end_date period base symbols : Option String) :
    Except PyErr (TSBody ρ) × List TSRequest :=
  match numberOfYears start_date end_date period with
  | .error e => (.error e, [])
  | .ok n =>
    if n ≤ 1 then
      if pyTruthy period then
        retrieve_timeseries_single api [] (some (fmtDate (subYears today 1)))
          (some (fmtDate today)) base symbols
      else
        retrieve_timeseries_single api [] start_date end_date base symbols
    else
      let w : Nat → String × String :=
        if pyTruthy period then windowAtPeriod today
        else windowAtExplicit ((parseDate (end_date.getD "")).getD ⟨1, 1, 1⟩)
          (start_date.getD "")
      match multiLoop api w base symbols 0 n.toNat [] [] with
      | (.ok data, log) => (.ok (mergeResults data), log)
      | (.error e, log) => (.error e, log)

/-! ### Lemmas about Python dict operations -/

theorem pyGet?_pySet {ρ : Type} (d : PyDict ρ) (k : String) (v : ρ) (k' : String) :
    pyGet? (pySet d k v) k' = if k = k' then some v else pyGet? d k' := by
  induction d with
  | nil => by_cases h : k = k' <;> simp [pySet, pyGet?, h]
  | cons kv rest ih =>
    obtain ⟨k0, v0⟩ := kv
    by_cases h0 : k0 = k
    · subst h0
      simp only [pySet, if_pos rfl]
      by_cases h : k0 = k' <;> simp [pyGet?, h]
    · simp only [pySet, if_neg h0]
      by_cases h : k0 = k'
      · subst h
        have hne : ¬(k = k0) := fun hh => h0 hh.symm
        simp [pyGet?, hne]
      · simp [pyGet?, h, ih]

/-- Last-occurrence lookup in an association list. -/
def pyLast? {ρ : Type} : PyDict ρ → String → Option ρ
  | [], _ => none
  | (k', v) :: rest, k =>
    match pyLast? rest k with
    | some v' => some v'
    | none => if k' = k then some v else none

theorem pyGet?_eq_none_of_not_mem {ρ : Type} (d : PyDict ρ) (k : String)
    (h : k ∉ d.map Prod.fst) : pyGet? d k = none := by
  induction d with
  | nil => rfl
  | cons kv rest ih =>
    obtain ⟨k0, v0⟩ := kv
    simp only [List.map_cons, List.mem_cons] at h
    push_neg at h
    have hne : ¬(k0 = k) := fun hh => h.1 hh.symm
    simp [pyGet?, hne, ih h.2]

theorem pyLast?_eq_none_of_not_mem {ρ : Type} (d : PyDict ρ) (k : String)
    (h : k ∉ d.map Prod.fst) : pyLast? d k = none := by
  induction d with
  | nil => rfl
  | cons kv rest ih =>
    obtain ⟨k0, v0⟩ := kv
    simp only [List.map_cons, List.mem_cons] at h
    push_neg at h
    have hne : ¬(k0 = k) := fun hh => h.1 hh.symm
    simp [pyLast?, hne, ih h.2]

theorem pyLast?_eq_pyGet? {ρ : Type} (d : PyDict ρ) (k : String)
    (h : (d.map Prod.fst).Nodup) : pyLast? d k = pyGet? d k := by
  induction d with
  | nil => rfl
  | cons kv rest ih =>
    obtain ⟨k0, v0⟩ := kv
    simp only [List.map_cons, List.nodup_cons] at h
    by_cases h0 : k0 = k
    · subst h0
      simp [pyLast?, pyGet?, pyLast?_eq_none_of_not_mem rest k0 h.1]
    · simp only [pyLast?, pyGet?, ih h.2, if_neg h0]
      cases pyGet? rest k <;> simp

theorem pyGet?_pyUpdate {ρ : Type} (d b : PyDict ρ) (k : String) :
    pyGet? (pyUpdate d b) k =
      match pyLast? b k with
      | some v => some v
      | none => pyGet? d k := by
  induction b generalizing d with
  | nil => rfl
  | cons kv rest ih =>
    obtain ⟨k0, v0⟩ := kv
    show pyGet? (pyUpdate (pySet d k0 v0) rest) k = _
    rw [ih]
    cases hrest : pyLast? rest k with
    | some v => simp [pyLast?, hrest]
    | none =>
      rw [pyGet?_pySet]
      by_cases h0 : k0 = k <;> simp [pyLast?, hrest, h0]

/-- The value a date `k` receives from a list of bodies, scanning
newest-first, taking the first body whose `rates` contains `k`. -/
def firstContrib {ρ : Type} : List (TSBody ρ) → String → Option ρ
  | [], _ => none
  | b :: rest, k =>
    match pyGet? b.rates k with
    | some v => some v
    | none => firstContrib rest k

theorem firstContrib_append {ρ : Type} (l : List (TSBody ρ)) (b : TSBody ρ) (k : String) :
    firstContrib (l ++ [b]) k =
      match firstContrib l k with
      | some v => some v
      | none => pyGet? b.rates k := by
  induction l with
  | nil => cases h : pyGet? b.rates k <;> simp [firstContrib, h]
  | cons x rest ih =>
    cases hx : pyGet? x.rates k with
    | some v => simp [firstContrib, hx]
    | none => simp [firstContrib, hx, ih]

theorem foldl_update_get {ρ : Type} (xs : List (TSBody ρ)) (acc : PyDict ρ) (k : String)
    (hnd : ∀ b ∈ xs, (b.rates.map Prod.fst).Nodup) :
    pyGet? (xs.foldl (fun a it => pyUpdate a it.rates) acc) k =
      match firstContrib xs.reverse k with
      | some v => some v
      | none => pyGet? acc k := by
  induction xs generalizing acc with
  | nil => rfl
  | cons b rest ih =>
    have hb : (b.rates.map Prod.fst).Nodup := hnd b (by simp)
    have hrest : ∀ x ∈ rest, (x.rates.map Prod.fst).Nodup := fun x hx => hnd x (by simp [hx])
    show pyGet? (rest.foldl (fun a it => pyUpdate a it.rates) (pyUpdate acc b.rates)) k = _
    rw [ih (pyUpdate acc b.rates) hrest]
    rw [List.reverse_cons, firstContrib_append]
    rw [pyGet?_pyUpdate, pyLast?_eq_pyGet? _ _ hb]
    cases firstContrib rest.reverse k <;> cases pyGet? b.rates k <;> rfl

/-- Looking a date up in the merged `rates` dict finds the value from the
newest fetched body containing that date (bodies listed in fetch order,
newest first; each body's `rates` has distinct keys as a JSON object does). -/
theorem mergeResults_get {ρ : Type} (data : List (TSBody ρ)) (k : String)
    (hnd : ∀ b ∈ data, (b.rates.map Prod.fst).Nodup) :
    pyGet? (mergeResults data).rates k = firstContrib data k := by
  show pyGet?
      (match data.reverse with
       | [] => []
       | x :: xs => xs.foldl (fun acc it => pyUpdate acc it.rates) x.rates) k = _
  cases hrev : data.reverse with
  | nil =>
    have hd : data = [] := by
      have := congrArg List.reverse hrev
      simpa using this
    subst hd
    rfl
  | cons x xs =>
    have hdata : data = xs.reverse ++ [x] := by
      have := congrArg List.reverse hrev
      simpa using this
    show pyGet? (xs.foldl (fun acc it => pyUpdate acc it.rates) x.rates) k = _
    have hnd' : ∀ b ∈ xs, (b.rates.map Prod.fst).Nodup := fun b hb =>
      hnd b (by rw [hdata]; simp [List.mem_reverse.2 hb])
    rw [foldl_update_get xs x.rates k hnd']
    conv_rhs => rw [hdata]
    rw [firstContrib_append]

/-! ### Lemmas about the request loop -/

theorem multiLoop_succ {ρ : Type} (api : TSApi ρ) (w : Nat → String × String)
    (b sy : Option String) (k n : Nat) (acc : List (TSBody ρ)) (log : List TSRequest) :
    multiLoop api w b sy k (n + 1) acc log =
      if (api (mkReq (w k) b sy)).status = 200 then
        multiLoop api w b sy (k + 1) n (acc ++ [(api (mkReq (w k) b sy)).body])
          (log ++ [mkReq (w k) b sy])
      else
        (.error (.upstreamError (api (mkReq (w k) b sy)).status), log ++ [mkReq (w k) b sy]) := by
  show (match retrieve_timeseries_single api log (some (w k).1) (some (w k).2) b sy with
    | (.ok body, log') => multiLoop api w b sy (k + 1) n (acc ++ [body]) log'
    | (.error e, log') => (.error e, log')) = _
  have hreq : (⟨some (w k).1, some (w k).2, b, sy⟩ : TSRequest) = mkReq (w k) b sy := rfl
  by_cases hst : (api (mkReq (w k) b sy)).status = 200 <;>
    simp [retrieve_timeseries_single, hreq, hst]

theorem multiLoop_ok {ρ : Type} (api : TSApi ρ) (w : Nat → String × String)
    (b sy : Option String) : ∀ (rem k : Nat) (acc : List (TSBody ρ)) (log : List TSRequest),
    (∀ j < rem, (api (mkReq (w (k + j)) b sy)).status = 200) →
    multiLoop api w b sy k rem acc log =
      (.ok (acc ++ (List.range rem).map fun j => (api (mkReq (w (k + j)) b sy)).body),
       log ++ (List.range rem).map fun j => mkReq (w (k + j)) b sy) := by
  intro rem
  induction rem with
  | zero => intro k acc log _; simp [multiLoop]
  | succ n ih =>
    intro k acc log h
    have h0 : (api (mkReq (w k) b sy)).status = 200 := by
      have := h 0 (Nat.succ_pos n); simpa using this
    rw [multiLoop_succ, if_pos h0]
    rw [ih (k + 1) _ _ (fun j hj => by
      have := h (j + 1) (Nat.succ_lt_succ hj)
      simpa [Nat.add_comm, Nat.add_assoc, Nat.add_left_comm] using this)]
    have harg : ∀ j : Nat, k + 1 + j = k + (j + 1) := fun j => by omega
    simp [List.range_succ_eq_map, List.map_map, Function.comp_def, harg]

theorem multiLoop_log_sub {ρ : Type} (api : TSApi ρ) (w : Nat → String × String)
    (b sy : Option String) : ∀ (rem k : Nat) (acc : List (TSBody ρ)) (log : List TSRequest)
    (r : TSRequest), r ∈ (multiLoop api w b sy k rem acc log).2 →
    r ∈ log ∨ ∃ j, j < rem ∧ r = mkReq (w (k + j)) b sy := by
  intro rem
  induction rem with
  | zero => intro k acc log r hr; exact Or.inl hr
  | succ n ih =>
    intro k acc log r hr
    rw [multiLoop_succ] at hr
    by_cases hst : (api (mkReq (w k) b sy)).status = 200
    · rw [if_pos hst] at hr
      rcases ih (k + 1) _ _ r hr with h | ⟨j, hj, hrj⟩
      · rcases List.mem_append.1 h with h' | h'
        · exact Or.inl h'
        · refine Or.inr ⟨0, Nat.succ_pos n, ?_⟩
          simpa using h'
      · refine Or.inr ⟨j + 1, Nat.succ_lt_succ hj, ?_⟩
        have : k + 1 + j = k + (j + 1) := by omega
        rwa [this] at hrj
    · rw [if_neg hst] at hr
      rcases List.mem_append.1 hr with h' | h'
      · exact Or.inl h'
      · refine Or.inr ⟨0, Nat.succ_pos n, ?_⟩
        simpa using h'

theorem multiLoop_first_fail {ρ : Type} (api : TSApi ρ) (w : Nat → String × String)
    (b sy : Option String) : ∀ (i k rem : Nat) (acc : List (TSBody ρ)) (log : List TSRequest),
    i < rem →
    (api (mkReq (w (k + i)) b sy)).status ≠ 200 →
    (∀ j < i, (api (mkReq (w (k + j)) b sy)).status = 200) →
    multiLoop api w b sy k rem acc log =
      (.error (.upstreamError (api (mkReq (w (k + i)) b sy)).status),
       log ++ (List.range (i + 1)).map fun j => mkReq (w (k + j)) b sy) := by
  intro i
  induction i with
  | zero =>
    intro k rem acc log hi hfail _
    obtain ⟨n, rfl⟩ : ∃ n, rem = n + 1 := ⟨rem - 1, by omega⟩
    simp only [Nat.add_zero] at hfail
    rw [multiLoop_succ, if_neg hfail]
    simp [List.range_succ]
  | succ m ih =>
    intro k rem acc log hi hfail hok
    obtain ⟨n, rfl⟩ : ∃ n, rem = n + 1 := ⟨rem - 1, by omega⟩
    have h0 : (api (mkReq (w k) b sy)).status = 200 := by
      have := hok 0 (Nat.succ_pos m); simpa using this
    rw [multiLoop_succ, if_pos h0]
    rw [ih (k + 1) n _ _ (by omega)
      (by
        have : k + 1 + m = k + (m + 1) := by omega
        rwa [this])
      (fun j hj => by
        have := hok (j + 1) (Nat.succ_lt_succ hj)
        have he : k + 1 + j = k + (j + 1) := by omega
        rwa [he])]
    have harg : ∀ j : Nat, k + 1 + j = k + (j + 1) := fun j => by omega
    have hm : k + 1 + m = k + (m + 1) := by omega
    rw [hm]
    simp [List.range_succ_eq_map, List.map_map, Function.comp_def, harg]

/-! ### Day-count arithmetic for dates

`ordDate` is a proleptic-Gregorian day number (for years ≥ 1 it is
`datetime.date.toordinal`); it is the measuring stick for the window-length
claims. -/

def leapsBefore (y : Int) : Int := (y - 1) / 4 - (y - 1) / 100 + (y - 1) / 400

def daysBeforeMonth (y : Int) (m : Nat) : Int :=
  (match m with
   | 1 => 0 | 2 => 31 | 3 => 59 | 4 => 90 | 5 => 120 | 6 => 151
   | 7 => 181 | 8 => 212 | 9 => 243 | 10 => 273 | 11 => 304 | 12 => 334
   | _ => 0)
  + (if 3 ≤ m ∧ isLeap y = true then 1 else 0)

def ordDate (d : Date) : Int :=
  365 * (d.year - 1) + leapsBefore d.year + daysBeforeMonth d.year d.month + d.day

def yearStart (y : Int) : Int := 365 * (y - 1) + leapsBefore y

theorem isLeap_iff (y : Int) :
    isLeap y = true ↔ (y % 4 = 0 ∧ (y % 100 ≠ 0 ∨ y % 400 = 0)) := by
  simp [isLeap, Bool.and_eq_true, Bool.or_eq_true, beq_iff_eq, bne_iff_ne]

theorem leapsBefore_succ (y : Int) :
    leapsBefore y = leapsBefore (y - 1) + (if isLeap (y - 1) = true then 1 else 0) := by
  by_cases h4 : (y - 1) % 4 = 0 <;> by_cases h100 : (y - 1) % 100 = 0 <;>
    by_cases h400 : (y - 1) % 400 = 0 <;>
    simp only [leapsBefore, isLeap_iff, h4, h100, h400] <;> simp <;> omega

theorem yearStart_succ (y : Int) :
    yearStart (y + 1) = yearStart y + 365 + (if isLeap y = true then 1 else 0) := by
  have := leapsBefore_succ (y + 1)
  simp only [add_sub_cancel_right] at this
  simp only [yearStart, this]
  ring

theorem yearStart_mono (y1 y2 : Int) (h : y1 ≤ y2) :
    yearStart y1 ≤ yearStart y2 := by
  obtain ⟨n, rfl⟩ : ∃ n : Nat, y2 = y1 + n := ⟨(y2 - y1).toNat, by omega⟩
  clear h
  induction n with
  | zero => simp
  | succ k ih =>
    have hstep : y1 + ((k : Nat) + 1 : Nat) = (y1 + k) + 1 := by push_cast; ring
    rw [hstep, yearStart_succ (y1 + k)]
    split <;> omega

theorem monthLen_bounds (y : Int) (m : Nat) : 28 ≤ monthLen y m ∧ monthLen y m ≤ 31 := by
  unfold monthLen
  split
  · split <;> omega
  · split <;> omega

theorem subYears_valid (d : Date) (hd : d.Valid) (n : Nat) : (subYears d n).Valid := by
  obtain ⟨h1, h2, h3, h4⟩ := hd
  have hb := monthLen_bounds (d.year - n) d.month
  exact ⟨h1, h2, by simp [subYears]; omega, by simp [subYears]⟩

theorem subYears_zero (d : Date) (hd : d.Valid) : subYears d 0 = d := by
  obtain ⟨_, _, _, h4⟩ := hd
  simp only [subYears, Nat.cast_zero, sub_zero]
  cases d
  simp_all [min_eq_left h4]

/-- The length of the window `[e - (k+1) years, e - k years]`: between 365
and 366 days (366 exactly when the window spans a February 29). -/
theorem ord_subYears_succ (e : Date) (he : e.Valid) (k : Nat) :
    365 ≤ ordDate (subYears e k) - ordDate (subYears e (k + 1)) ∧
    ordDate (subYears e k) - ordDate (subYears e (k + 1)) ≤ 366 := by
  obtain ⟨y, m, d⟩ := e
  obtain ⟨h1, h2, h3, h4⟩ := he
  simp only at h1 h2 h3 h4
  have h4' : d ≤ 31 := le_trans h4 (monthLen_bounds _ _).2
  have hls := leapsBefore_succ (y - k)
  have hc : y - ((k + 1 : Nat) : Int) = y - k - 1 := by push_cast; ring
  simp only [ordDate, subYears, hc]
  interval_cases m <;>
    simp only [daysBeforeMonth, monthLen] <;>
    cases hL1 : isLeap (y - (k : Int)) <;> cases hL2 : isLeap (y - (k : Int) - 1) <;>
    simp [hL1, hL2, hls] <;> omega

theorem addMonths_twelve_eq (s : Date) (hs : s.Valid) :
    addMonths s 12 = ⟨s.year + 1, s.month, min s.day (monthLen (s.year + 1) s.month)⟩ := by
  obtain ⟨h1, h2, _, _⟩ := hs
  have hy : (12 * s.year + ((s.month : Int) - 1) + 12) / 12 = s.year + 1 := by omega
  have hm : ((12 * s.year + ((s.month : Int) - 1) + 12) % 12).toNat = s.month - 1 := by omega
  have hmm : s.month - 1 + 1 = s.month := by omega
  simp only [addMonths, hy, hm, hmm]

/-- The span from a date to the same calendar date one year later (day
clamped) is at most 366 days. -/
theorem ord_addMonths_twelve (s : Date) (hs : s.Valid) :
    ordDate (addMonths s 12) - ordDate s ≤ 366 := by
  rw [addMonths_twelve_eq s hs]
  obtain ⟨y, m, d⟩ := s
  obtain ⟨h1, h2, h3, h4⟩ := hs
  simp only at h1 h2 h3 h4
  have h4' : d ≤ 31 := le_trans h4 (monthLen_bounds _ _).2
  have hls := leapsBefore_succ (y + 1)
  simp only [add_sub_cancel_right] at hls
  simp only [ordDate]
  interval_cases m <;>
    simp only [daysBeforeMonth, monthLen] <;>
    cases hL1 : isLeap (y + 1) <;> cases hL2 : isLeap y <;>
    simp [hL1, hL2, hls] <;> omega

/-! ### Month-index view of dates and ordering lemmas -/

/-- Total month index `12*year + (month-1)`. -/
def mIdx (d : Date) : Int := 12 * d.year + ((d.month : Int) - 1)

theorem mIdx_addMonths (d : Date) (j : Int) : mIdx (addMonths d j) = mIdx d + j := by
  simp only [addMonths, mIdx]
  omega

theorem addMonths_month_bounds (d : Date) (j : Int) :
    1 ≤ (addMonths d j).month ∧ (addMonths d j).month ≤ 12 := by
  simp only [addMonths]
  omega

theorem addMonths_valid (d : Date) (hd : d.Valid) (j : Int) : (addMonths d j).Valid := by
  obtain ⟨h1, h2, h3, h4⟩ := hd
  have hmb := addMonths_month_bounds d j
  have hday : (addMonths d j).day
      = min d.day (monthLen (addMonths d j).year (addMonths d j).month) := rfl
  have hb := monthLen_bounds (addMonths d j).year (addMonths d j).month
  exact ⟨hmb.1, hmb.2, by rw [hday]; omega, by rw [hday]; exact min_le_right _ _⟩

theorem addMonths_zero (d : Date) (hd : d.Valid) : addMonths d 0 = d := by
  obtain ⟨h1, h2, h3, h4⟩ := hd
  have hy : (12 * d.year + ((d.month : Int) - 1) + 0) / 12 = d.year := by omega
  have hm : ((12 * d.year + ((d.month : Int) - 1) + 0) % 12).toNat = d.month - 1 := by omega
  have hmm : d.month - 1 + 1 = d.month := by omega
  cases d
  simp_all [addMonths, hy, hm, hmm, min_eq_left h4]

theorem blt_of_mIdx_lt (a b : Date) (ha : 1 ≤ a.month ∧ a.month ≤ 12)
    (hb : 1 ≤ b.month ∧ b.month ≤ 12) (h : mIdx a < mIdx b) : Date.blt a b = true := by
  unfold mIdx at h
  unfold Date.blt
  split_ifs with h1 h2 h3 h4 <;> first | rfl | (exfalso; omega)

theorem mIdx_le_of_blt_false (a b : Date) (ha : 1 ≤ a.month ∧ a.month ≤ 12)
    (hb : 1 ≤ b.month ∧ b.month ≤ 12) (h : Date.blt a b = false) : mIdx b ≤ mIdx a := by
  unfold Date.blt at h
  unfold mIdx
  split_ifs at h <;> omega

theorem mIdx_le_of_blt_true (a b : Date) (ha : 1 ≤ a.month ∧ a.month ≤ 12)
    (hb : 1 ≤ b.month ∧ b.month ≤ 12) (h : Date.blt a b = true) : mIdx a ≤ mIdx b := by
  unfold Date.blt at h
  unfold mIdx
  split_ifs at h <;> simp at h <;> omega

theorem blt_asymm (a b : Date) (h : Date.blt a b = true) : Date.blt b a = false := by
  unfold Date.blt at *
  split_ifs at h <;> split_ifs <;> simp_all <;> omega

theorem blt_cases (a b : Date) :
    Date.blt a b = true ∨ Date.blt b a = true ∨ a = b := by
  obtain ⟨ya, ma, da⟩ := a
  obtain ⟨yb, mb, db⟩ := b
  simp only [Date.blt, Date.mk.injEq]
  by_cases h1 : ya < yb <;> by_cases h2 : yb < ya <;> by_cases h3 : ma < mb <;>
    by_cases h4 : mb < ma <;> by_cases h5 : da < db <;> by_cases h6 : db < da <;>
    simp [h1, h2, h3, h4, h5, h6] <;> omega

theorem addMonths_index_blt (s : Date) (j1 j2 : Int) (h : j1 < j2) :
    Date.blt (addMonths s j1) (addMonths s j2) = true := by
  simp only [addMonths, Date.blt]
  split_ifs with h1 h2 h3 h4 <;> first | rfl | (exfalso; omega)

/-! ### Ordinal bounds and monotonicity -/

theorem ord_upper (d : Date) (hd : d.Valid) :
    ordDate d ≤ yearStart d.year + 365 + (if isLeap d.year = true then 1 else 0) := by
  obtain ⟨y, m, dd⟩ := d
  obtain ⟨h1, h2, h3, h4⟩ := hd
  simp only at h1 h2 h3 h4
  simp only [ordDate, yearStart]
  interval_cases m <;>
    simp only [daysBeforeMonth, monthLen] at h4 ⊢ <;>
    cases hL : isLeap y <;> simp [hL] at h4 ⊢ <;> omega

theorem ord_lower (d : Date) (hd : d.Valid) : yearStart d.year + 1 ≤ ordDate d := by
  obtain ⟨y, m, dd⟩ := d
  obtain ⟨h1, h2, h3, h4⟩ := hd
  simp only at h1 h2 h3 h4
  simp only [ordDate, yearStart]
  interval_cases m <;>
    simp only [daysBeforeMonth, monthLen] at h4 ⊢ <;>
    cases hL : isLeap y <;> simp [hL] at h4 ⊢ <;> omega

theorem dbm_mlen_le (y : Int) (m1 m2 : Nat) (h1 : 1 ≤ m1) (h : m1 < m2) (h2 : m2 ≤ 12) :
    daysBeforeMonth y m1 + monthLen y m1 ≤ daysBeforeMonth y m2 := by
  have h1u : m1 ≤ 11 := by omega
  have h2l : 1 ≤ m2 := by omega
  interval_cases m1 <;> interval_cases m2 <;>
    cases hL : isLeap y <;> simp [daysBeforeMonth, monthLen, hL] <;> omega

/-- Dates earlier in `datetime` order have strictly smaller ordinals. -/
theorem ordDate_lt_of_blt (a b : Date) (ha : a.Valid) (hb : b.Valid)
    (h : Date.blt a b = true) : ordDate a < ordDate b := by
  obtain ⟨ya, ma, da⟩ := a
  obtain ⟨yb, mb, db⟩ := b
  obtain ⟨ha1, ha2, ha3, ha4⟩ := ha
  obtain ⟨hb1, hb2, hb3, hb4⟩ := hb
  simp only at ha1 ha2 ha3 ha4 hb1 hb2 hb3 hb4
  unfold Date.blt at h
  dsimp only at h
  split_ifs at h with h1 h2 h3 h4
  · -- year strictly increases
    have hu := ord_upper ⟨ya, ma, da⟩ ⟨ha1, ha2, ha3, ha4⟩
    have hl := ord_lower ⟨yb, mb, db⟩ ⟨hb1, hb2, hb3, hb4⟩
    dsimp only at hu hl
    have hs := yearStart_succ ya
    have hm := yearStart_mono (ya + 1) yb (by omega)
    omega
  · -- same year, month strictly increases
    have hyy : ya = yb := by omega
    subst hyy
    have hc := dbm_mlen_le ya ma mb ha1 h3 hb2
    simp only [ordDate]
    omega
  · -- same year and month, day strictly increases
    have hyy : ya = yb := by omega
    have hmm : ma = mb := by omega
    subst hyy; subst hmm
    simp only [decide_eq_true_eq] at h
    simp only [ordDate]
    omega

theorem ordDate_le_of_blt_false (a b : Date) (ha : a.Valid) (hb : b.Valid)
    (h : Date.blt a b = false) : ordDate b ≤ ordDate a := by
  rcases blt_cases a b with hab | hba | heq
  · rw [hab] at h; exact absurd h (by simp)
  · exact le_of_lt (ordDate_lt_of_blt b a hb ha hba)
  · subst heq; exact le_refl _

/-! ### Analysis of `rdMonths` / `pyYearDiff` -/

theorem rdMonths_def (d1 d2 : Date) :
    rdMonths d1 d2 =
      if Date.blt d1 d2 = true then
        (if Date.blt (addMonths d2 (mIdx d1 - mIdx d2)) d1 = true
         then (mIdx d1 - mIdx d2) + 1 else mIdx d1 - mIdx d2)
      else
        (if Date.blt d1 (addMonths d2 (mIdx d1 - mIdx d2)) = true
         then (mIdx d1 - mIdx d2) - 1 else mIdx d1 - mIdx d2) := by
  have hm : 12 * (d1.year - d2.year) + ((d1.month : Int) - d2.month) = mIdx d1 - mIdx d2 := by
    unfold mIdx; ring
  simp only [rdMonths, hm]

theorem rdMonths_nonneg_of_ge (d1 d2 : Date) (h1 : d1.Valid) (h2 : d2.Valid)
    (hlt : Date.blt d1 d2 = false) :
    0 ≤ rdMonths d1 d2 ∧ rdMonths d1 d2 ≤ mIdx d1 - mIdx d2 := by
  have hm0 : mIdx d2 ≤ mIdx d1 :=
    mIdx_le_of_blt_false d1 d2 ⟨h1.1, h1.2.1⟩ ⟨h2.1, h2.2.1⟩ hlt
  rw [rdMonths_def, if_neg (by simp [hlt])]
  by_cases hadj : Date.blt d1 (addMonths d2 (mIdx d1 - mIdx d2)) = true
  · rw [if_pos hadj]
    constructor
    · by_contra hneg
      have h0 : mIdx d1 - mIdx d2 = 0 := by omega
      rw [h0, addMonths_zero d2 h2] at hadj
      rw [hadj] at hlt
      exact absurd hlt (by simp)
    · omega
  · rw [if_neg hadj]
    omega

/-- The overshoot-adjustment `while` loop of the `relativedelta` constructor
terminates after the single conditional step embedded in `rdMonths`: after
that step, the loop's guard is false. -/
theorem rdMonths_adjust_stops (d1 d2 : Date) (h1 : d1.Valid) (h2 : d2.Valid) :
    (Date.blt d1 d2 = false → Date.blt d1 (addMonths d2 (rdMonths d1 d2)) = false) ∧
    (Date.blt d1 d2 = true → Date.blt (addMonths d2 (rdMonths d1 d2)) d1 = false) := by
  have hmb1 : 1 ≤ d1.month ∧ d1.month ≤ 12 := ⟨h1.1, h1.2.1⟩
  constructor
  · intro hlt
    rw [rdMonths_def, if_neg (by simp [hlt])]
    by_cases hadj : Date.blt d1 (addMonths d2 (mIdx d1 - mIdx d2)) = true
    · rw [if_pos hadj]
      apply blt_asymm
      apply blt_of_mIdx_lt _ _ (addMonths_month_bounds _ _) hmb1
      rw [mIdx_addMonths]
      omega
    · rw [if_neg hadj]
      simpa using hadj
  · intro hlt
    rw [rdMonths_def, if_pos (by simp [hlt])]
    by_cases hadj : Date.blt (addMonths d2 (mIdx d1 - mIdx d2)) d1 = true
    · rw [if_pos hadj]
      apply blt_asymm
      apply blt_of_mIdx_lt _ _ hmb1 (addMonths_month_bounds _ _)
      rw [mIdx_addMonths]
      omega
    · rw [if_neg hadj]
      simpa using hadj

/-- If `relativedelta(e, s).years ≤ 0`, then `e` is at most 366 days after
`s` (the bound of the single-window fast path). -/
theorem ord_le_of_yearDiff_nonpos (s e : Date) (hs : s.Valid) (he : e.Valid)
    (h : pyYearDiff e s ≤ 0) : ordDate e - ordDate s ≤ 366 := by
  cases hlt : Date.blt e s with
  | true =>
    have := ordDate_lt_of_blt e s he hs hlt
    omega
  | false =>
    obtain ⟨hrd0, hrdle⟩ := rdMonths_nonneg_of_ge e s he hs hlt
    have hle11 : rdMonths e s ≤ 11 := by
      unfold pyYearDiff yearsOfMonths at h
      split_ifs at h <;> omega
    have hkey : Date.blt e (addMonths s (rdMonths e s + 1)) = true := by
      rw [rdMonths_def, if_neg (by simp [hlt])]
      by_cases hadj : Date.blt e (addMonths s (mIdx e - mIdx s)) = true
      · rw [if_pos hadj]
        have hplus : mIdx e - mIdx s - 1 + 1 = mIdx e - mIdx s := by omega
        rw [hplus]
        exact hadj
      · rw [if_neg hadj]
        apply blt_of_mIdx_lt _ _ ⟨he.1, he.2.1⟩ (addMonths_month_bounds _ _)
        rw [mIdx_addMonths]
        omega
    have h1 : ordDate e < ordDate (addMonths s (rdMonths e s + 1)) :=
      ordDate_lt_of_blt _ _ he (addMonths_valid s hs _) hkey
    have h2 : ordDate (addMonths s (rdMonths e s + 1)) ≤ ordDate (addMonths s 12) := by
      rcases lt_or_eq_of_le (show rdMonths e s + 1 ≤ 12 by omega) with hlt12 | heq12
      · exact le_of_lt (ordDate_lt_of_blt _ _ (addMonths_valid s hs _) (addMonths_valid s hs _)
          (addMonths_index_blt s _ _ hlt12))
      · rw [heq12]
    have h3 := ord_addMonths_twelve s hs
    omega

/-- When `relativedelta(e, s).years` is positive it is at most the plain
year difference `e.year - s.year`. -/
theorem pyYearDiff_le_yearSub (s e : Date) (hs : s.Valid) (he : e.Valid)
    (hpos : 1 ≤ pyYearDiff e s) : pyYearDiff e s ≤ e.year - s.year := by
  have hme1 : 1 ≤ e.month := he.1
  have hme2 : e.month ≤ 12 := he.2.1
  have hms1 : 1 ≤ s.month := hs.1
  have hms2 : s.month ≤ 12 := hs.2.1
  cases hlt : Date.blt e s with
  | true =>
    exfalso
    have hm := mIdx_le_of_blt_true e s ⟨hme1, hme2⟩ ⟨hms1, hms2⟩ hlt
    have hrd : rdMonths e s ≤ mIdx e - mIdx s + 1 := by
      rw [rdMonths_def, if_pos (by simp [hlt])]
      split_ifs <;> omega
    unfold pyYearDiff yearsOfMonths at hpos
    split_ifs at hpos <;> omega
  | false =>
    obtain ⟨hrd0, hrdle⟩ := rdMonths_nonneg_of_ge e s he hs hlt
    have hmb : mIdx e - mIdx s ≤ 12 * (e.year - s.year) + 11 := by
      unfold mIdx
      omega
    unfold mIdx at hrdle
    unfold pyYearDiff yearsOfMonths at hpos ⊢
    split_ifs at hpos ⊢ <;> omega

/-! ### Lexicographic comparison of formatted dates

Line 127 of the source compares date strings with Python string `<`; these
lemmas relate that comparison on canonical `YYYY-MM-DD` strings to `datetime`
order. -/

theorem digitChar_lt_iff_fin :
    ∀ x y : Fin 10, (Nat.digitChar x.val < Nat.digitChar y.val ↔ x.val < y.val) := by
  decide

theorem digitChar_lt_iff (x y : Nat) (hx : x < 10) (hy : y < 10) :
    (Nat.digitChar x < Nat.digitChar y) ↔ x < y := by
  have := digitChar_lt_iff_fin ⟨x, hx⟩ ⟨y, hy⟩
  simpa using this

theorem pyStrLtL_dig2 (x y : Nat) (hx : x < 100) (hy : y < 100) (s t : List Char) :
    pyStrLtL (dig2 x ++ s) (dig2 y ++ t) = true ↔ (x < y ∨ (x = y ∧ pyStrLtL s t = true)) := by
  have i1 := digitChar_lt_iff (x / 10) (y / 10) (by omega) (by omega)
  have i2 := digitChar_lt_iff (y / 10) (x / 10) (by omega) (by omega)
  have i3 := digitChar_lt_iff (x % 10) (y % 10) (by omega) (by omega)
  have i4 := digitChar_lt_iff (y % 10) (x % 10) (by omega) (by omega)
  simp only [dig2, List.cons_append, pyStrLtL]
  split_ifs with h1 h2 h3 h4
  · have hn := i1.1 h1
    exact iff_of_true rfl (Or.inl (by omega))
  · have hn := i2.1 h2
    refine iff_of_false (by simp) ?_
    rintro (hxy | ⟨rfl, _⟩) <;> omega
  · have he : x / 10 = y / 10 := by
      have n1 : ¬ x / 10 < y / 10 := fun hh => h1 (i1.2 hh)
      have n2 : ¬ y / 10 < x / 10 := fun hh => h2 (i2.2 hh)
      omega
    have hn := i3.1 h3
    exact iff_of_true rfl (Or.inl (by omega))
  · have he : x / 10 = y / 10 := by
      have n1 : ¬ x / 10 < y / 10 := fun hh => h1 (i1.2 hh)
      have n2 : ¬ y / 10 < x / 10 := fun hh => h2 (i2.2 hh)
      omega
    have hn := i4.1 h4
    refine iff_of_false (by simp) ?_
    rintro (hxy | ⟨rfl, _⟩) <;> omega
  · have he : x / 10 = y / 10 := by
      have n1 : ¬ x / 10 < y / 10 := fun hh => h1 (i1.2 hh)
      have n2 : ¬ y / 10 < x / 10 := fun hh => h2 (i2.2 hh)
      omega
    have he2 : x % 10 = y % 10 := by
      have n3 : ¬ x % 10 < y % 10 := fun hh => h3 (i3.2 hh)
      have n4 : ¬ y % 10 < x % 10 := fun hh => h4 (i4.2 hh)
      omega
    have hxy : x = y := by omega
    subst hxy
    simp

theorem pyStrLtL_dig4 (x y : Nat) (hx : x < 10000) (hy : y < 10000) (s t : List Char) :
    pyStrLtL (dig4 x ++ s) (dig4 y ++ t) = true ↔ (x < y ∨ (x = y ∧ pyStrLtL s t = true)) := by
  have h1 := pyStrLtL_dig2 (x / 100) (y / 100) (by omega) (by omega)
    (dig2 (x % 100) ++ s) (dig2 (y % 100) ++ t)
  have h2 := pyStrLtL_dig2 (x % 100) (y % 100) (by omega) (by omega) s t
  simp only [dig4, List.append_assoc]
  rw [h1, h2]
  constructor
  · rintro (h | ⟨he, (h | ⟨he2, hst⟩)⟩)
    · exact Or.inl (by omega)
    · exact Or.inl (by omega)
    · exact Or.inr ⟨by omega, hst⟩
  · rintro (h | ⟨rfl, hst⟩)
    · rcases Nat.lt_or_ge (x / 100) (y / 100) with hh | hh
      · exact Or.inl hh
      · exact Or.inr ⟨by omega, Or.inl (by omega)⟩
    · exact Or.inr ⟨rfl, Or.inr ⟨rfl, hst⟩⟩

theorem pyStrLtL_dig2_nil (x y : Nat) (hx : x < 100) (hy : y < 100) :
    pyStrLtL (dig2 x) (dig2 y) = true ↔ x < y := by
  have h := pyStrLtL_dig2 x y hx hy [] []
  simp only [List.append_nil] at h
  rw [h]
  simp [pyStrLtL]

theorem pyStrLtL_cons_same (c : Char) (s t : List Char) :
    pyStrLtL (c :: s) (c :: t) = true ↔ pyStrLtL s t = true := by
  have hir : ¬ c < c := lt_irrefl c
  simp [pyStrLtL, hir]

/-- On canonically formatted dates with four-digit years, Python string `<`
implies `datetime` order. -/
theorem blt_of_pyStrLt_fmt (a b : Date) (ha : a.Valid) (hb : b.Valid)
    (h0a : 0 ≤ a.year) (h9a : a.year ≤ 9999) (h0b : 0 ≤ b.year) (h9b : b.year ≤ 9999)
    (h : pyStrLt (fmtDate a) (fmtDate b) = true) : Date.blt a b = true := by
  have hma : a.month ≤ 12 := ha.2.1
  have hmb : b.month ≤ 12 := hb.2.1
  have hda : a.day ≤ 31 := le_trans ha.2.2.2 (monthLen_bounds _ _).2
  have hdb : b.day ≤ 31 := le_trans hb.2.2.2 (monthLen_bounds _ _).2
  unfold pyStrLt fmtDate at h
  dsimp only at h
  rw [pyStrLtL_dig4 _ _ (by omega) (by omega)] at h
  rcases h with hy | ⟨hy, h⟩
  · unfold Date.blt
    split_ifs <;> first | rfl | (exfalso; omega)
  · rw [pyStrLtL_cons_same] at h
    rw [pyStrLtL_dig2 _ _ (by omega) (by omega)] at h
    rcases h with hm | ⟨hm, h⟩
    · unfold Date.blt
      split_ifs <;> first | rfl | (exfalso; omega)
    · rw [pyStrLtL_cons_same] at h
      rw [pyStrLtL_dig2_nil _ _ (by omega) (by omega)] at h
      unfold Date.blt
      split_ifs <;>
        first | rfl | (exfalso; omega) | (simp only [decide_eq_true_eq]; omega)

/-! ### Path dispatch lemmas for `get_timeseries_of_exchange_rates` -/

theorem pyTruthy_some (s : String) (h : s ≠ "") : pyTruthy (some s) = true := by
  simp [pyTruthy, h]

theorem fmtDate_ne_empty (d : Date) : fmtDate d ≠ "" := by
  intro h
  have hd : (fmtDate d).data = [] := congrArg String.data h
  simp [fmtDate, dig4, dig2] at hd

theorem retrieve_single_log {ρ : Type} (api : TSApi ρ) (log : List TSRequest)
    (sd ed b sy : Option String) :
    (retrieve_timeseries_single api log sd ed b sy).2 = log ++ [⟨sd, ed, b, sy⟩] := by
  unfold retrieve_timeseries_single
  dsimp only
  split_ifs <;> rfl

theorem gts_match_snd {ρ : Type} (x : Except PyErr (List (TSBody ρ)) × List TSRequest) :
    (match x with
     | (.ok data, log) => ((.ok (mergeResults data) : Except PyErr (TSBody ρ)), log)
     | (.error e, log) => (.error e, log)).2 = x.2 := by
  obtain ⟨res, log⟩ := x
  cases res <;> rfl

theorem numberOfYears_period (sd ed : Option String) (p : String) (hp : p ≠ "") :
    numberOfYears sd ed (some p) =
      if (strFirst p).isDigit then .ok ((((strFirst p).toNat - 48 : Nat)) : Int)
      else .error .valueError := by
  simp [numberOfYears, pyTruthy_some p hp]

theorem numberOfYears_explicit (sds eds : String) (hs : sds ≠ "") (he : eds ≠ "")
    (period : Option String) (hper : pyTruthy period = false) (s e : Date)
    (hps : parseDate sds = some s) (hpe : parseDate eds = some e) :
    numberOfYears (some sds) (some eds) period = .ok (pyYearDiff e s + 1) := by
  simp [numberOfYears, hper, pyTruthy_some sds hs, pyTruthy_some eds he, hps, hpe]

theorem gts_explicit_fast {ρ : Type} (api : TSApi ρ) (today : Date)
    (sds eds : String) (period base symbols : Option String) (s e : Date)
    (hs : sds ≠ "") (he : eds ≠ "") (hper : pyTruthy period = false)
    (hps : parseDate sds = some s) (hpe : parseDate eds = some e)
    (hn : pyYearDiff e s ≤ 0) :
    get_timeseries_of_exchange_rates api today (some sds) (some eds) period base symbols
      = retrieve_timeseries_single api [] (some sds) (some eds) base symbols := by
  unfold get_timeseries_of_exchange_rates
  rw [numberOfYears_explicit sds eds hs he period hper s e hps hpe]
  have h1 : pyYearDiff e s + 1 ≤ 1 := by omega
  simp [h1, hper]

theorem gts_explicit_multi {ρ : Type} (api : TSApi ρ) (today : Date)
    (sds eds : String) (period base symbols : Option String) (s e : Date)
    (hs : sds ≠ "") (he : eds ≠ "") (hper : pyTruthy period = false)
    (hps : parseDate sds = some s) (hpe : parseDate eds = some e)
    (hn : 1 ≤ pyYearDiff e s) :
    get_timeseries_of_exchange_rates api today (some sds) (some eds) period base symbols
      = (match multiLoop api (windowAtExplicit e sds) base symbols 0
            (pyYearDiff e s + 1).toNat [] [] with
         | (.ok data, log) => (.ok (mergeResults data), log)
         | (.error err, log) => (.error err, log)) := by
  unfold get_timeseries_of_exchange_rates
  rw [numberOfYears_explicit sds eds hs he period hper s e hps hpe]
  have h1 : ¬ (pyYearDiff e s + 1 ≤ 1) := by omega
  simp [h1, hper, hpe]

theorem gts_period_fast {ρ : Type} (api : TSApi ρ) (today : Date)
    (sd ed : Option String) (p : String) (base symbols : Option String)
    (hp : p ≠ "") (hdig : (strFirst p).isDigit = true)
    (hn : ((strFirst p).toNat - 48 : Nat) ≤ 1) :
    get_timeseries_of_exchange_rates api today sd ed (some p) base symbols
      = retrieve_timeseries_single api [] (some (fmtDate (subYears today 1)))
          (some (fmtDate today)) base symbols := by
  unfold get_timeseries_of_exchange_rates
  rw [numberOfYears_period sd ed p hp]
  have h1 : (((strFirst p).toNat - 48 : Nat) : Int) ≤ 1 := by omega
  simp [hdig, h1, pyTruthy_some p hp]

theorem gts_period_multi {ρ : Type} (api : TSApi ρ) (today : Date)
    (sd ed : Option String) (p : String) (base symbols : Option String)
    (hp : p ≠ "") (hdig : (strFirst p).isDigit = true)
    (hn : 2 ≤ ((strFirst p).toNat - 48 : Nat)) :
    get_timeseries_of_exchange_rates api today sd ed (some p) base symbols
      = (match multiLoop api (windowAtPeriod today) base symbols 0
            ((strFirst p).toNat - 48) [] [] with
         | (.ok data, log) => (.ok (mergeResults data), log)
         | (.error err, log) => (.error err, log)) := by
  unfold get_timeseries_of_exchange_rates
  rw [numberOfYears_period sd ed p hp]
  have h1 : ¬ ((((strFirst p).toNat - 48 : Nat) : Int) ≤ 1) := by omega
  have h2 : ((((strFirst p).toNat - 48 : Nat) : Int)).toNat = ((strFirst p).toNat - 48 : Nat) := by
    omega
  simp [hdig, h1, h2, pyTruthy_some p hp]

/-! ### Claim C6 -/

/-- C6 counterexample: with all four parameters absent, the single-window
timeseries operation does not fail with `InvalidArgument`; it issues the
remote call (the log receives the request) and returns the parsed response. -/
theorem claim_C6_counterexample :
    retrieve_timeseries_single (fun _ => ⟨200, ⟨"s", "e", [], []⟩⟩ : TSApi Nat) []
        none none none none
      = (.ok ⟨"s", "e", [], []⟩, [⟨none, none, none, none⟩]) := by
  rfl

/-- C6 (amended): the single-window timeseries operation performs no argument
validation: it issues the remote call exactly once whatever the four
parameters are (absent ones included, interpolated as the string `None` in
the URL); it fails with `UpstreamError` carrying the status on any non-200
status and otherwise returns the parsed response. -/
theorem claim_C6_amended {ρ : Type} (api : TSApi ρ) (log : List TSRequest)
    (sd ed b sy : Option String) :
    (retrieve_timeseries_single api log sd ed b sy).2 = log ++ [⟨sd, ed, b, sy⟩] ∧
    ((api ⟨sd, ed, b, sy⟩).status = 200 →
      (retrieve_timeseries_single api log sd ed b sy).1 = .ok (api ⟨sd, ed, b, sy⟩).body) ∧
    ((api ⟨sd, ed, b, sy⟩).status ≠ 200 →
      (retrieve_timeseries_single api log sd ed b sy).1
        = .error (.upstreamError (api ⟨sd, ed, b, sy⟩).status)) := by
  unfold retrieve_timeseries_single
  by_cases h : (api ⟨sd, ed, b, sy⟩).status = 200 <;> simp [h]

theorem claim_C6_witness :
    (retrieve_timeseries_single (fun _ => ⟨404, ⟨"s", "e", [], []⟩⟩ : TSApi Nat) []
        (some "2020-01-01") (some "2020-06-01") (some "EUR") (some "USD")).1
      = .error (.upstreamError 404) :=
  (claim_C6_amended (fun _ => ⟨404, ⟨"s", "e", [], []⟩⟩ : TSApi Nat) []
    (some "2020-01-01") (some "2020-06-01") (some "EUR") (some "USD")).2.2 (by decide)

/-! ### Claim C8 -/

/-- C8: `latestRates` fails with `InvalidArgument` and issues no remote call
whenever `base` or `symbols` is absent or empty; with both non-empty it
issues exactly one call, failing with `UpstreamError` carrying the status on
a non-200 status and returning the parsed snapshot otherwise. -/
theorem claim_C8 {β : Type} (api : LatestRequest → LatestResponse β)
    (base symbols : Option String) :
    ((base = none ∨ base = some "" ∨ symbols = none ∨ symbols = some "") →
      retrieve_latest_exchange_rates api base symbols
        = (.error (.invalidArgument
            "Either base or symbols argument was None. Please pass both arguments."), [])) ∧
    (∀ bs ss : String, base = some bs → bs ≠ "" → symbols = some ss → ss ≠ "" →
      (retrieve_latest_exchange_rates api base symbols).2 = [⟨base, symbols⟩] ∧
      ((api ⟨base, symbols⟩).status = 200 →
        (retrieve_latest_exchange_rates api base symbols).1 = .ok (api ⟨base, symbols⟩).body) ∧
      ((api ⟨base, symbols⟩).status ≠ 200 →
        (retrieve_latest_exchange_rates api base symbols).1
          = .error (.upstreamError (api ⟨base, symbols⟩).status))) := by
  constructor
  · intro h
    rcases h with rfl | rfl | rfl | rfl <;>
      simp [retrieve_latest_exchange_rates, pyTruthy]
  · intro bs ss hb hbne hs hsne
    subst hb; subst hs
    unfold retrieve_latest_exchange_rates
    rw [pyTruthy_some ss hsne, pyTruthy_some bs hbne]
    by_cases h : (api ⟨some bs, some ss⟩).status = 200 <;> simp [h]

theorem claim_C8_witness :
    retrieve_latest_exchange_rates (fun _ => (⟨200, 42⟩ : LatestResponse Nat)) none (some "USD")
      = (.error (.invalidArgument
          "Either base or symbols argument was None. Please pass both arguments."), []) ∧
    (retrieve_latest_exchange_rates (fun _ => (⟨200, 42⟩ : LatestResponse Nat))
        (some "EUR") (some "USD")).2 = [⟨some "EUR", some "USD"⟩] :=
  ⟨(claim_C8 (fun _ => (⟨200, 42⟩ : LatestResponse Nat)) none (some "USD")).1 (Or.inl rfl),
   ((claim_C8 (fun _ => (⟨200, 42⟩ : LatestResponse Nat)) (some "EUR") (some "USD")).2
     "EUR" "USD" rfl (by decide) rfl (by decide)).1⟩

/-! ### Claim C2 -/

/-- C2 counterexample: the explicit pair 2020-02-29 .. 2021-02-28 is exactly
365 days (end - start ≤ 365 days), yet `getTimeseries` issues two sub-calls,
not one: `relativedelta` counts the span as one full year, so the
multi-window path is taken. -/
theorem claim_C2_counterexample :
    parseDate "2020-02-29" = some ⟨2020, 2, 29⟩ ∧
    parseDate "2021-02-28" = some ⟨2021, 2, 28⟩ ∧
    ordDate ⟨2021, 2, 28⟩ - ordDate ⟨2020, 2, 29⟩ = 365 ∧
    (get_timeseries_of_exchange_rates
        (fun _ => ⟨200, ⟨"", "", [], []⟩⟩ : TSApi Nat) ⟨2024, 6, 1⟩
        (some "2020-02-29") (some "2021-02-28") none none none).2.length = 2 := by
  refine ⟨by decide, by decide, by decide, ?_⟩
  rfl

/-- C2 (amended): for an explicit pair whose `relativedelta` year difference
is at most 0 (in particular any pair spanning less than one clamped calendar
year; a 365-day pair across a leap day is counted as one full year and is
excluded), exactly one sub-call is issued with the window `[start, end]`
passed through verbatim, and its result is returned unchanged. -/
theorem claim_C2_amended {ρ : Type} (api : TSApi ρ) (today : Date)
    (sds eds : String) (period base symbols : Option String) (s e : Date)
    (hs : sds ≠ "") (he : eds ≠ "") (hper : pyTruthy period = false)
    (hps : parseDate sds = some s) (hpe : parseDate eds = some e)
    (hn : pyYearDiff e s ≤ 0) :
    get_timeseries_of_exchange_rates api today (some sds) (some eds) period base symbols
      = retrieve_timeseries_single api [] (some sds) (some eds) base symbols ∧
    (get_timeseries_of_exchange_rates api today (some sds) (some eds) period base symbols).2
      = [⟨some sds, some eds, base, symbols⟩] ∧
    ((api ⟨some sds, some eds, base, symbols⟩).status = 200 →
      (get_timeseries_of_exchange_rates api today (some sds) (some eds) period base symbols).1
        = .ok (api ⟨some sds, some eds, base, symbols⟩).body) := by
  have hfast := gts_explicit_fast api today sds eds period base symbols s e
    hs he hper hps hpe hn
  refine ⟨hfast, ?_, ?_⟩
  · rw [hfast, retrieve_single_log]
    rfl
  · intro h200
    rw [hfast]
    unfold retrieve_timeseries_single
    simp [h200]

theorem claim_C2_witness :
    (get_timeseries_of_exchange_rates
        (fun _ => ⟨200, ⟨"a", "b", [], []⟩⟩ : TSApi Nat) ⟨2024, 6, 1⟩
        (some "2020-03-01") (some "2020-09-15") none (some "EUR") (some "USD")).2
      = [⟨some "2020-03-01", some "2020-09-15", some "EUR", some "USD"⟩] :=
  (claim_C2_amended (fun _ => ⟨200, ⟨"a", "b", [], []⟩⟩ : TSApi Nat) ⟨2024, 6, 1⟩
    "2020-03-01" "2020-09-15" none (some "EUR") (some "USD") ⟨2020, 3, 1⟩ ⟨2020, 9, 15⟩
    (by decide) (by decide) rfl (by decide) (by decide) (by decide)).2.1

/-! ### Claim C1 -/

/-- C1 counterexample: for start 2019-03-01 and end 2022-03-01 (exactly 3
years), `getTimeseries` issues 4 sub-calls, not 3: the year count is
`relativedelta(end, start).years + 1 = 4`. -/
theorem claim_C1_counterexample :
    pyYearDiff ⟨2022, 3, 1⟩ ⟨2019, 3, 1⟩ = 3 ∧
    (get_timeseries_of_exchange_rates
        (fun _ => ⟨200, ⟨"", "", [], []⟩⟩ : TSApi Nat) ⟨2024, 6, 1⟩
        (some "2019-03-01") (some "2022-03-01") none none none).2.length ≠ 3 ∧
    (get_timeseries_of_exchange_rates
        (fun _ => ⟨200, ⟨"", "", [], []⟩⟩ : TSApi Nat) ⟨2024, 6, 1⟩
        (some "2019-03-01") (some "2022-03-01") none none none).2.length = 4 := by
  refine ⟨by decide, ?_, ?_⟩ <;> first | rfl | (intro h; simp at h) | decide

/-- C1 (amended): for the explicit pair start=2019-03-01, end=2022-03-01,
`getTimeseries` issues exactly 4 sub-window calls (the integer year
difference 3 plus one); the newest window's end is 2022-03-01 and the oldest
issued window is clamped to the degenerate single-day window
[2019-03-01, 2019-03-01]. -/
theorem claim_C1_amended {ρ : Type} (api : TSApi ρ) (today : Date)
    (base symbols : Option String) (h200 : ∀ r, (api r).status = 200) :
    (get_timeseries_of_exchange_rates api today
        (some "2019-03-01") (some "2022-03-01") none base symbols).2
      = [⟨some "2021-03-01", some "2022-03-01", base, symbols⟩,
         ⟨some "2020-03-01", some "2021-03-01", base, symbols⟩,
         ⟨some "2019-03-01", some "2020-03-01", base, symbols⟩,
         ⟨some "2019-03-01", some "2019-03-01", base, symbols⟩] := by
  rw [gts_explicit_multi api today "2019-03-01" "2022-03-01" none base symbols
    ⟨2019, 3, 1⟩ ⟨2022, 3, 1⟩ (by decide) (by decide) rfl (by decide) (by decide) (by decide)]
  rw [multiLoop_ok api (windowAtExplicit ⟨2022, 3, 1⟩ "2019-03-01") base symbols _ 0 [] []
    (fun j _ => h200 _)]
  rfl

theorem claim_C1_witness :
    (get_timeseries_of_exchange_rates
        (fun _ => ⟨200, ⟨"", "", [], []⟩⟩ : TSApi Nat) ⟨2024, 6, 1⟩
        (some "2019-03-01") (some "2022-03-01") none none none).2
      = [⟨some "2021-03-01", some "2022-03-01", none, none⟩,
         ⟨some "2020-03-01", some "2021-03-01", none, none⟩,
         ⟨some "2019-03-01", some "2020-03-01", none, none⟩,
         ⟨some "2019-03-01", some "2019-03-01", none, none⟩] :=
  claim_C1_amended (fun _ => ⟨200, ⟨"", "", [], []⟩⟩ : TSApi Nat) ⟨2024, 6, 1⟩
    none none (fun _ => rfl)

/-! ### Helpers for the symbolic-period paths -/

theorem getLastD_append_singleton {α : Type} (l : List α) (a d : α) :
    (l ++ [a]).getLastD d = a := by
  rw [List.getLastD_eq_getLast?, List.getLast?_concat]
  rfl

theorem getLastD_map_range {α : Type} (f : Nat → α) (N : Nat) (h : 1 ≤ N) (d : α) :
    ((List.range N).map f).getLastD d = f (N - 1) := by
  obtain ⟨M, rfl⟩ : ∃ M, N = M + 1 := ⟨N - 1, by omega⟩
  rw [List.range_succ, List.map_append]
  simp [getLastD_append_singleton]

theorem headD_map_range {α : Type} (f : Nat → α) (N : Nat) (h : 1 ≤ N) (d : α) :
    ((List.range N).map f).headD d = f 0 := by
  obtain ⟨M, rfl⟩ : ∃ M, N = M + 1 := ⟨N - 1, by omega⟩
  rw [List.range_succ_eq_map]
  rfl

theorem gts_period_log {ρ : Type} (api : TSApi ρ) (today : Date)
    (sd ed : Option String) (p : String) (base symbols : Option String)
    (hp : p ≠ "") (hdig : (strFirst p).isDigit = true)
    (h200 : ∀ r, (api r).status = 200) :
    (((strFirst p).toNat - 48 : Nat) ≤ 1 →
      (get_timeseries_of_exchange_rates api today sd ed (some p) base symbols).2
        = [⟨some (fmtDate (subYears today 1)), some (fmtDate today), base, symbols⟩]) ∧
    (2 ≤ ((strFirst p).toNat - 48 : Nat) →
      (get_timeseries_of_exchange_rates api today sd ed (some p) base symbols).2
        = (List.range ((strFirst p).toNat - 48)).map
            (fun k => ⟨some (fmtDate (subYears today (k + 1))),
                       some (fmtDate (subYears today k)), base, symbols⟩)) := by
  constructor
  · intro hn
    rw [gts_period_fast api today sd ed p base symbols hp hdig hn, retrieve_single_log]
    rfl
  · intro hn
    rw [gts_period_multi api today sd ed p base symbols hp hdig hn]
    rw [multiLoop_ok api (windowAtPeriod today) base symbols _ 0 [] []
      (fun j _ => h200 _)]
    simp [mkReq, windowAtPeriod]

theorem retrieve_single_ok {ρ : Type} (api : TSApi ρ) (log : List TSRequest)
    (sd ed b sy : Option String) (h : (api ⟨sd, ed, b, sy⟩).status = 200) :
    (retrieve_timeseries_single api log sd ed b sy).1 = .ok (api ⟨sd, ed, b, sy⟩).body := by
  unfold retrieve_timeseries_single
  simp [h]

theorem gts_period_ok {ρ : Type} (api : TSApi ρ) (today : Date)
    (sd ed : Option String) (p : String) (base symbols : Option String)
    (hp : p ≠ "") (hdig : (strFirst p).isDigit = true)
    (h200 : ∀ r, (api r).status = 200) :
    ∃ out, (get_timeseries_of_exchange_rates api today sd ed (some p) base symbols).1
      = .ok out := by
  by_cases hn : ((strFirst p).toNat - 48 : Nat) ≤ 1
  · rw [gts_period_fast api today sd ed p base symbols hp hdig hn]
    exact ⟨_, retrieve_single_ok api [] _ _ base symbols (h200 _)⟩
  · rw [gts_period_multi api today sd ed p base symbols hp hdig (by omega)]
    rw [multiLoop_ok api (windowAtPeriod today) base symbols _ 0 [] []
      (fun j _ => h200 _)]
    exact ⟨_, rfl⟩

theorem gts_period_span {ρ : Type} (api : TSApi ρ) (today : Date)
    (sd ed : Option String) (p : String) (base symbols : Option String)
    (hv : today.Valid) (hp : p ≠ "") (hdig : (strFirst p).isDigit = true)
    (h200 : ∀ r, (api r).status = 200)
    (hecho : ∀ r, (api r).body.start_date = r.start_date.getD ""
      ∧ (api r).body.end_date = r.end_date.getD "")
    (hN : 1 ≤ ((strFirst p).toNat - 48 : Nat)) :
    ∃ out, (get_timeseries_of_exchange_rates api today sd ed (some p) base symbols).1
        = .ok out
      ∧ out.start_date = fmtDate (subYears today ((strFirst p).toNat - 48))
      ∧ out.end_date = fmtDate today := by
  by_cases hn : ((strFirst p).toNat - 48 : Nat) ≤ 1
  · have hN1 : ((strFirst p).toNat - 48 : Nat) = 1 := by omega
    rw [gts_period_fast api today sd ed p base symbols hp hdig hn]
    refine ⟨(api ⟨some (fmtDate (subYears today 1)), some (fmtDate today),
        base, symbols⟩).body, retrieve_single_ok api [] _ _ base symbols (h200 _), ?_, ?_⟩
    · rw [(hecho _).1, hN1]
      rfl
    · rw [(hecho _).2]
      rfl
  · rw [gts_period_multi api today sd ed p base symbols hp hdig (by omega)]
    rw [multiLoop_ok api (windowAtPeriod today) base symbols _ 0 [] []
      (fun j _ => h200 _)]
    refine ⟨mergeResults ([] ++ (List.range ((strFirst p).toNat - 48)).map
        fun j => (api (mkReq (windowAtPeriod today (0 + j)) base symbols)).body), rfl, ?_, ?_⟩
    · show (mergeResults _).start_date = _
      unfold mergeResults
      rw [List.nil_append,
        getLastD_map_range _ _ (by omega)]
      rw [(hecho _).1]
      simp only [mkReq, windowAtPeriod, Option.getD_some]
      congr 2
      omega
    · show (mergeResults _).end_date = _
      unfold mergeResults
      rw [List.nil_append,
        headD_map_range _ _ (by omega)]
      rw [(hecho _).2]
      simp only [mkReq, windowAtPeriod, Option.getD_some]
      rw [Nat.zero_add, subYears_zero today hv]

/-! ### Claim C10 -/

/-- C10: for any non-empty period string whose first character is a digit
`N`, `getTimeseries` accepts the string without consulting `valid_periods`
(membership is never required), derives the window count solely from that
first character — `N` requests when `N ≥ 1`, the one-year fast-path request
when `N = 0` — and ignores any explicit start/end dates entirely. -/
theorem claim_C10 {ρ : Type} (api : TSApi ρ) (today : Date) (p : String)
    (base symbols : Option String)
    (hp : p ≠ "") (hdig : (strFirst p).isDigit = true)
    (h200 : ∀ r, (api r).status = 200) :
    (∀ sd ed sd' ed' : Option String,
      get_timeseries_of_exchange_rates api today sd ed (some p) base symbols
        = get_timeseries_of_exchange_rates api today sd' ed' (some p) base symbols) ∧
    (∃ out, (get_timeseries_of_exchange_rates api today none none (some p) base symbols).1
      = .ok out) ∧
    (1 ≤ ((strFirst p).toNat - 48 : Nat) →
      (get_timeseries_of_exchange_rates api today none none (some p) base symbols).2.length
        = (strFirst p).toNat - 48) ∧
    (((strFirst p).toNat - 48 : Nat) = 0 →
      (get_timeseries_of_exchange_rates api today none none (some p) base symbols).2
        = [⟨some (fmtDate (subYears today 1)), some (fmtDate today), base, symbols⟩]) := by
  refine ⟨?_, gts_period_ok api today none none p base symbols hp hdig h200, ?_, ?_⟩
  · intro sd ed sd' ed'
    unfold get_timeseries_of_exchange_rates
    rw [numberOfYears_period sd ed p hp, numberOfYears_period sd' ed' p hp]
    simp [pyTruthy_some p hp]
  · intro hN
    by_cases hn : ((strFirst p).toNat - 48 : Nat) ≤ 1
    · rw [(gts_period_log api today none none p base symbols hp hdig h200).1 hn]
      simp
      omega
    · rw [(gts_period_log api today none none p base symbols hp hdig h200).2 (by omega)]
      simp
  · intro hN
    exact (gts_period_log api today none none p base symbols hp hdig h200).1 (by omega)

theorem claim_C10_witness :
    some "4y" ∉ valid_periods ∧
    (get_timeseries_of_exchange_rates
        (fun _ => ⟨200, ⟨"", "", [], []⟩⟩ : TSApi Nat) ⟨2024, 6, 1⟩
        none none (some "4y") none none).2.length = 4 ∧
    get_timeseries_of_exchange_rates
        (fun _ => ⟨200, ⟨"", "", [], []⟩⟩ : TSApi Nat) ⟨2024, 6, 1⟩
        (some "2019-01-01") (some "2020-01-01") (some "4y") none none
      = get_timeseries_of_exchange_rates
          (fun _ => ⟨200, ⟨"", "", [], []⟩⟩ : TSApi Nat) ⟨2024, 6, 1⟩
          none none (some "4y") none none := by
  refine ⟨by decide, ?_, ?_⟩
  · exact (claim_C10 (fun _ => ⟨200, ⟨"", "", [], []⟩⟩ : TSApi Nat) ⟨2024, 6, 1⟩ "4y"
      none none (by decide) (by decide) (fun _ => rfl)).2.2.1 (by decide)
  · exact (claim_C10 (fun _ => ⟨200, ⟨"", "", [], []⟩⟩ : TSApi Nat) ⟨2024, 6, 1⟩ "4y"
      none none (by decide) (by decide) (fun _ => rfl)).1
      (some "2019-01-01") (some "2020-01-01") none none

/-! ### Claim C4 -/

/-- C4: for every symbolic period `Ny` in {1y, 2y, 3y, 5y}, `getTimeseries`
issues exactly `N` sub-window calls, most recent first, window `k` running
from `today − (k+1) years` to `today − k years`, and — when every sub-call
succeeds and echoes the requested boundary dates — the merged result spans
exactly `[today − N years, today]`. -/
theorem claim_C4 {ρ : Type} (api : TSApi ρ) (today : Date) (p : String)
    (base symbols : Option String)
    (hv : today.Valid)
    (hp : p ∈ ["1y", "2y", "3y", "5y"])
    (h200 : ∀ r, (api r).status = 200)
    (hecho : ∀ r, (api r).body.start_date = r.start_date.getD ""
      ∧ (api r).body.end_date = r.end_date.getD "") :
    (get_timeseries_of_exchange_rates api today none none (some p) base symbols).2
      = (List.range ((strFirst p).toNat - 48)).map
          (fun k => ⟨some (fmtDate (subYears today (k + 1))),
                     some (fmtDate (subYears today k)), base, symbols⟩) ∧
    ∃ out, (get_timeseries_of_exchange_rates api today none none (some p) base symbols).1
        = .ok out
      ∧ out.start_date = fmtDate (subYears today ((strFirst p).toNat - 48))
      ∧ out.end_date = fmtDate today := by
  have hlog : ∀ (hp' : p ≠ "") (hdig : (strFirst p).isDigit = true),
      ((strFirst p).toNat - 48 : Nat) = 1 →
      (get_timeseries_of_exchange_rates api today none none (some p) base symbols).2
        = (List.range ((strFirst p).toNat - 48)).map
            (fun k => ⟨some (fmtDate (subYears today (k + 1))),
                       some (fmtDate (subYears today k)), base, symbols⟩) := by
    intro hp' hdig h1
    rw [(gts_period_log api today none none p base symbols hp' hdig h200).1 (by omega), h1]
    simp [List.range_succ, subYears_zero today hv]
  simp only [List.mem_cons, List.not_mem_nil, or_false] at hp
  rcases hp with rfl | rfl | rfl | rfl
  · exact ⟨hlog (by decide) (by decide) (by decide),
      gts_period_span api today none none _ base symbols hv (by decide) (by decide)
        h200 hecho (by decide)⟩
  · exact ⟨(gts_period_log api today none none _ base symbols (by decide) (by decide)
        h200).2 (by decide),
      gts_period_span api today none none _ base symbols hv (by decide) (by decide)
        h200 hecho (by decide)⟩
  · exact ⟨(gts_period_log api today none none _ base symbols (by decide) (by decide)
        h200).2 (by decide),
      gts_period_span api today none none _ base symbols hv (by decide) (by decide)
        h200 hecho (by decide)⟩
  · exact ⟨(gts_period_log api today none none _ base symbols (by decide) (by decide)
        h200).2 (by decide),
      gts_period_span api today none none _ base symbols hv (by decide) (by decide)
        h200 hecho (by decide)⟩

theorem claim_C4_witness :
    (get_timeseries_of_exchange_rates
        (fun r => ⟨200, ⟨r.start_date.getD "", r.end_date.getD "", [], []⟩⟩ : TSApi Nat)
        ⟨2024, 6, 1⟩ none none (some "3y") none none).2
      = [⟨some "2023-06-01", some "2024-06-01", none, none⟩,
         ⟨some "2022-06-01", some "2023-06-01", none, none⟩,
         ⟨some "2021-06-01", some "2022-06-01", none, none⟩] := by
  have h := (claim_C4
    (fun r => ⟨200, ⟨r.start_date.getD "", r.end_date.getD "", [], []⟩⟩ : TSApi Nat)
    ⟨2024, 6, 1⟩ "3y" none none (by decide) (by simp) (fun _ => rfl)
    (fun r => ⟨rfl, rfl⟩)).1
  rw [h]
  rfl

/-! ### Claim C7 -/

/-- C7: in both multi-window modes of `getTimeseries`, if the sub-call at
position `i` is the first to return a non-200 status, the whole operation
returns exactly that `UpstreamError` with the status preserved, the log
contains only the first `i+1` requests (none issued after the failing one),
and no merged or partial result is produced. -/
theorem claim_C7 {ρ : Type} (api : TSApi ρ) (today : Date)
    (base symbols : Option String) :
    (∀ (p : String) (sd ed : Option String) (i : Nat),
      p ≠ "" → (strFirst p).isDigit = true → 2 ≤ ((strFirst p).toNat - 48 : Nat) →
      i < (strFirst p).toNat - 48 →
      (api (mkReq (windowAtPeriod today i) base symbols)).status ≠ 200 →
      (∀ j < i, (api (mkReq (windowAtPeriod today j) base symbols)).status = 200) →
      get_timeseries_of_exchange_rates api today sd ed (some p) base symbols
        = (.error (.upstreamError
            (api (mkReq (windowAtPeriod today i) base symbols)).status),
           (List.range (i + 1)).map fun j => mkReq (windowAtPeriod today j) base symbols)) ∧
    (∀ (sds eds : String) (period : Option String) (s e : Date) (i : Nat),
      sds ≠ "" → eds ≠ "" → pyTruthy period = false →
      parseDate sds = some s → parseDate eds = some e → 1 ≤ pyYearDiff e s →
      i < (pyYearDiff e s + 1).toNat →
      (api (mkReq (windowAtExplicit e sds i) base symbols)).status ≠ 200 →
      (∀ j < i, (api (mkReq (windowAtExplicit e sds j) base symbols)).status = 200) →
      get_timeseries_of_exchange_rates api today (some sds) (some eds) period base symbols
        = (.error (.upstreamError
            (api (mkReq (windowAtExplicit e sds i) base symbols)).status),
           (List.range (i + 1)).map fun j => mkReq (windowAtExplicit e sds j) base symbols)) := by
  constructor
  · intro p sd ed i hp hdig hN hi hfail hok
    rw [gts_period_multi api today sd ed p base symbols hp hdig hN]
    rw [multiLoop_first_fail api (windowAtPeriod today) base symbols i 0 _ [] [] hi
      (by simpa using hfail) (fun j hj => by simpa using hok j hj)]
    simp
  · intro sds eds period s e i hs he hper hps hpe hd hi hfail hok
    rw [gts_explicit_multi api today sds eds period base symbols s e hs he hper hps hpe hd]
    rw [multiLoop_first_fail api (windowAtExplicit e sds) base symbols i 0 _ [] [] hi
      (by simpa using hfail) (fun j hj => by simpa using hok j hj)]
    simp

theorem claim_C7_witness :
    get_timeseries_of_exchange_rates
        (fun r => if r.end_date = some "2024-06-01"
          then ⟨500, ⟨"", "", [], []⟩⟩ else ⟨200, ⟨"", "", [], []⟩⟩ : TSApi Nat)
        ⟨2024, 6, 1⟩ none none (some "2y") none none
      = (.error (.upstreamError 500),
         [⟨some "2023-06-01", some "2024-06-01", none, none⟩]) := by
  have h := (claim_C7
    (fun r => if r.end_date = some "2024-06-01"
      then ⟨500, ⟨"", "", [], []⟩⟩ else ⟨200, ⟨"", "", [], []⟩⟩ : TSApi Nat)
    ⟨2024, 6, 1⟩ none none).1 "2y" none none 0
    (by decide) (by decide) (by decide) (by decide) (by decide)
    (fun j hj => absurd hj (by omega))
  exact h

/-! ### Claim C9 -/

/-- C9: the multi-window result is built by `mergeResults` over the fetched
bodies and carries exactly the three keys `start_date`, `end_date`, `rates`
(its `extra` fields are empty, so every other response field is discarded),
while both single-window fast paths return the raw response body with all of
its fields — `extra` included — intact. -/
theorem claim_C9 {ρ : Type} (api : TSApi ρ) (today : Date)
    (base symbols : Option String) :
    (∀ data : List (TSBody ρ), (mergeResults data).extra = [] ∧
      TSBody.keys (mergeResults data) = ["start_date", "end_date", "rates"]) ∧
    (∀ p : String, p ≠ "" → (strFirst p).isDigit = true →
      2 ≤ ((strFirst p).toNat - 48 : Nat) → (∀ r, (api r).status = 200) →
      (get_timeseries_of_exchange_rates api today none none (some p) base symbols).1
        = .ok (mergeResults
            ((get_timeseries_of_exchange_rates api today none none (some p) base symbols).2.map
              (fun r => (api r).body)))) ∧
    (∀ (sds eds : String) (s e : Date), sds ≠ "" → eds ≠ "" →
      parseDate sds = some s → parseDate eds = some e → 1 ≤ pyYearDiff e s →
      (∀ r, (api r).status = 200) →
      (get_timeseries_of_exchange_rates api today (some sds) (some eds) none base symbols).1
        = .ok (mergeResults
            ((get_timeseries_of_exchange_rates api today (some sds) (some eds) none
                base symbols).2.map (fun r => (api r).body)))) ∧
    (∀ (sds eds : String) (s e : Date), sds ≠ "" → eds ≠ "" →
      parseDate sds = some s → parseDate eds = some e → pyYearDiff e s ≤ 0 →
      (api ⟨some sds, some eds, base, symbols⟩).status = 200 →
      (get_timeseries_of_exchange_rates api today (some sds) (some eds) none base symbols).1
        = .ok (api ⟨some sds, some eds, base, symbols⟩).body) ∧
    (∀ p : String, p ≠ "" → (strFirst p).isDigit = true →
      ((strFirst p).toNat - 48 : Nat) ≤ 1 →
      (api ⟨some (fmtDate (subYears today 1)), some (fmtDate today),
          base, symbols⟩).status = 200 →
      (get_timeseries_of_exchange_rates api today none none (some p) base symbols).1
        = .ok (api ⟨some (fmtDate (subYears today 1)), some (fmtDate today),
            base, symbols⟩).body) := by
  refine ⟨?_, ?_, ?_, ?_, ?_⟩
  · intro data
    exact ⟨rfl, rfl⟩
  · intro p hp hdig hN h200
    rw [gts_period_multi api today none none p base symbols hp hdig hN]
    rw [multiLoop_ok api (windowAtPeriod today) base symbols _ 0 [] []
      (fun j _ => h200 _)]
    simp only [List.nil_append, List.map_map]
    rfl
  · intro sds eds s e hs he hps hpe hd h200
    rw [gts_explicit_multi api today sds eds none base symbols s e hs he rfl hps hpe hd]
    rw [multiLoop_ok api (windowAtExplicit e sds) base symbols _ 0 [] []
      (fun j _ => h200 _)]
    simp only [List.nil_append, List.map_map]
    rfl
  · intro sds eds s e hs he hps hpe hd h200
    rw [gts_explicit_fast api today sds eds none base symbols s e hs he rfl hps hpe hd]
    exact retrieve_single_ok api [] _ _ base symbols h200
  · intro p hp hdig hN h200
    rw [gts_period_fast api today none none p base symbols hp hdig hN]
    exact retrieve_single_ok api [] _ _ base symbols h200

theorem claim_C9_witness :
    (mergeResults ([⟨"a", "b", [("x", 1)], [("base", "EUR"), ("timestamp", "t")]⟩]
        : List (TSBody Nat))).extra = [] ∧
    TSBody.keys (mergeResults ([⟨"a", "b", [("x", 1)], [("base", "EUR")]⟩]
        : List (TSBody Nat))) = ["start_date", "end_date", "rates"] ∧
    (get_timeseries_of_exchange_rates
        (fun _ => ⟨200, ⟨"a", "b", [("x", 1)], [("base", "EUR"), ("success", "true")]⟩⟩
          : TSApi Nat) ⟨2024, 6, 1⟩
        (some "2020-03-01") (some "2020-09-15") none none none).1
      = .ok ⟨"a", "b", [("x", 1)], [("base", "EUR"), ("success", "true")]⟩ := by
  refine ⟨?_, ?_, ?_⟩
  · exact (claim_C9 (fun _ => ⟨200, ⟨"", "", [], []⟩⟩ : TSApi Nat) ⟨2024, 6, 1⟩
      none none).1 _ |>.1
  · exact (claim_C9 (fun _ => ⟨200, ⟨"", "", [], []⟩⟩ : TSApi Nat) ⟨2024, 6, 1⟩
      none none).1 _ |>.2
  · exact (claim_C9
      (fun _ => ⟨200, ⟨"a", "b", [("x", 1)], [("base", "EUR"), ("success", "true")]⟩⟩
        : TSApi Nat) ⟨2024, 6, 1⟩ none none).2.2.2.1 "2020-03-01" "2020-09-15"
      ⟨2020, 3, 1⟩ ⟨2020, 9, 15⟩ (by decide) (by decide) (by decide) (by decide)
      (by decide) (by decide)

/-! ### Claim C3 -/

theorem firstContrib_of_get {ρ : Type} (l : List (TSBody ρ)) :
    ∀ (i : Nat) (hi : i < l.length) (date : String) (v : ρ),
    pyGet? (l.get ⟨i, hi⟩).rates date = some v →
    (∀ i' (h : i' < i), pyGet? (l.get ⟨i', Nat.lt_trans h hi⟩).rates date = none) →
    firstContrib l date = some v := by
  induction l with
  | nil =>
    intro i hi
    exact absurd hi (by simp)
  | cons b rest ih =>
    intro i hi date v hv hnone
    cases i with
    | zero =>
      have hb : pyGet? b.rates date = some v := hv
      simp [firstContrib, hb]
    | succ i' =>
      have h0 : pyGet? b.rates date = none := hnone 0 (Nat.succ_pos i')
      simp only [firstContrib, h0]
      exact ih i' (by simpa using hi) date v hv
        (fun j hj => hnone (j + 1) (Nat.succ_lt_succ hj))

/-- C3: in the multi-window merge, the result's `start_date` is the oldest
(last-fetched) body's reported `start_date`, its `end_date` is the newest
(first-fetched) body's reported `end_date`, the merged `rates` dict is the
per-window dicts applied oldest-to-newest through `dict.update`, and a date
carried by two windows (and no newer one) keeps the newer window's value. -/
theorem claim_C3 {ρ : Type} (d : TSBody ρ) (ds : List (TSBody ρ)) :
    (mergeResults (d :: ds)).start_date = ((d :: ds).getLast (by simp)).start_date ∧
    (mergeResults (d :: ds)).end_date = d.end_date ∧
    (mergeResults (d :: ds)).rates
      = (match (d :: ds).reverse with
         | [] => []
         | x :: xs => xs.foldl (fun acc it => pyUpdate acc it.rates) x.rates) ∧
    (∀ (hnd : ∀ b ∈ d :: ds, (b.rates.map Prod.fst).Nodup)
       (i j : Nat) (hij : i < j) (hj : j < (d :: ds).length) (date : String) (v : ρ),
       pyGet? ((d :: ds).get ⟨i, Nat.lt_trans hij hj⟩).rates date = some v →
       (pyGet? ((d :: ds).get ⟨j, hj⟩).rates date).isSome = true →
       (∀ i' (h : i' < i), pyGet? ((d :: ds).get
           ⟨i', Nat.lt_trans h (Nat.lt_trans hij hj)⟩).rates date = none) →
       pyGet? (mergeResults (d :: ds)).rates date = some v) := by
  refine ⟨?_, rfl, rfl, ?_⟩
  · show ((d :: ds).getLastD ⟨"", "", [], []⟩).start_date = _
    rw [List.getLastD_eq_getLast?, List.getLast?_eq_getLast _ (by simp)]
    rfl
  · intro hnd i j hij hj date v hv hjs hnone
    rw [mergeResults_get _ _ hnd]
    exact firstContrib_of_get (d :: ds) i (Nat.lt_trans hij hj) date v hv hnone

theorem claim_C3_witness :
    pyGet? (mergeResults ([⟨"b", "c", [("x", 2)], []⟩,
        ⟨"a", "b", [("x", 1), ("y", 5)], []⟩] : List (TSBody Nat))).rates "x" = some 2 ∧
    (mergeResults ([⟨"b", "c", [("x", 2)], []⟩,
        ⟨"a", "b", [("x", 1), ("y", 5)], []⟩] : List (TSBody Nat))).start_date = "a" ∧
    (mergeResults ([⟨"b", "c", [("x", 2)], []⟩,
        ⟨"a", "b", [("x", 1), ("y", 5)], []⟩] : List (TSBody Nat))).end_date = "c" := by
  have h := claim_C3 (⟨"b", "c", [("x", 2)], []⟩ : TSBody Nat)
    [⟨"a", "b", [("x", 1), ("y", 5)], []⟩]
  refine ⟨?_, ?_, h.2.1⟩
  · exact h.2.2.2 (by decide) 0 1 (by omega) (by simp) "x" 2 (by decide) (by decide)
      (fun i' h' => absurd h' (by omega))
  · rw [h.1]
    rfl

/-! ### Claim C5 -/

/-- C5 counterexample: two violations of the claimed window invariant.
(a) For the explicit pair 2020-02-29 .. 2021-02-28 the second issued window
is [2020-02-29, 2020-02-28], whose start is after its end.
(b) For period `1y` on 2024-06-01 the single issued window
[2023-06-01, 2024-06-01] spans 366 days, exceeding 365. -/
theorem claim_C5_counterexample :
    (get_timeseries_of_exchange_rates
        (fun _ => ⟨200, ⟨"", "", [], []⟩⟩ : TSApi Nat) ⟨2024, 6, 1⟩
        (some "2020-02-29") (some "2021-02-28") none none none).2.getD 1
        ⟨none, none, none, none⟩
      = ⟨some "2020-02-29", some "2020-02-28", none, none⟩ ∧
    parseDate "2020-02-29" = some ⟨2020, 2, 29⟩ ∧
    parseDate "2020-02-28" = some ⟨2020, 2, 28⟩ ∧
    Date.blt ⟨2020, 2, 28⟩ ⟨2020, 2, 29⟩ = true ∧
    (get_timeseries_of_exchange_rates
        (fun _ => ⟨200, ⟨"", "", [], []⟩⟩ : TSApi Nat) ⟨2024, 6, 1⟩
        none none (some "1y") none none).2
      = [⟨some "2023-06-01", some "2024-06-01", none, none⟩] ∧
    parseDate "2023-06-01" = some ⟨2023, 6, 1⟩ ∧
    parseDate "2024-06-01" = some ⟨2024, 6, 1⟩ ∧
    ordDate ⟨2024, 6, 1⟩ - ordDate ⟨2023, 6, 1⟩ = 366 := by
  exact ⟨by decide, by decide, by decide, by decide, by decide, by decide, by decide, by decide⟩

theorem mem_match_multi {ρ : Type} (x : Except PyErr (List (TSBody ρ)) × List TSRequest)
    (r : TSRequest)
    (hr : r ∈ (match x with
        | (Except.ok data, log) =>
            ((Except.ok (mergeResults data) : Except PyErr (TSBody ρ)), log)
        | (Except.error e, log) =>
            ((Except.error e : Except PyErr (TSBody ρ)), log)).2) : r ∈ x.2 := by
  obtain ⟨res, log⟩ := x
  cases res <;> exact hr

/-- C5 (amended): on a symbolic period, or on an explicit pair given as
canonical zero-padded `YYYY-MM-DD` strings with four-digit years, every
window handed to the single-window fetch spans at most 366 days
(end-ordinal minus start-ordinal ≤ 366). The claim's `start ≤ end` and the
365-day bound both fail on the real code: a clamped oldest window of an
explicit pair can start after its end, and windows spanning a February 29
have 366 days. -/
theorem claim_C5_amended {ρ : Type} (api : TSApi ρ) (today : Date)
    (sd ed period base symbols : Option String)
    (hv : today.Valid)
    (H : pyTruthy period = true ∨
      ∃ s e : Date, s.Valid ∧ e.Valid ∧
        1000 ≤ s.year ∧ s.year ≤ 9999 ∧ 1000 ≤ e.year ∧ e.year ≤ 9999 ∧
        sd = some (fmtDate s) ∧ ed = some (fmtDate e) ∧
        parseDate (fmtDate s) = some s ∧ parseDate (fmtDate e) = some e) :
    ∀ r ∈ (get_timeseries_of_exchange_rates api today sd ed period base symbols).2,
      ∃ ds de : Date, r.start_date = some (fmtDate ds) ∧ r.end_date = some (fmtDate de) ∧
        ordDate de - ordDate ds ≤ 366 := by
  intro r hr
  by_cases hper : pyTruthy period = true
  · -- symbolic-period mode
    obtain ⟨p, rfl, hpne⟩ : ∃ p, period = some p ∧ p ≠ "" := by
      cases period with
      | none => simp [pyTruthy] at hper
      | some p =>
        refine ⟨p, rfl, ?_⟩
        simpa [pyTruthy] using hper
    by_cases hdig : (strFirst p).isDigit = true
    · by_cases hn : ((strFirst p).toNat - 48 : Nat) ≤ 1
      · rw [gts_period_fast api today sd ed p base symbols hpne hdig hn,
          retrieve_single_log] at hr
        simp only [List.nil_append, List.mem_singleton] at hr
        subst hr
        refine ⟨subYears today 1, today, rfl, rfl, ?_⟩
        have h := ord_subYears_succ today hv 0
        rw [subYears_zero today hv] at h
        simp only [Nat.zero_add] at h
        omega
      · rw [gts_period_multi api today sd ed p base symbols hpne hdig (by omega)] at hr
        have hr' := mem_match_multi _ r hr
        rcases multiLoop_log_sub api _ base symbols _ 0 [] [] r hr' with h | ⟨j, hj, rfl⟩
        · exact absurd h (by simp)
        · exact ⟨subYears today (0 + j + 1), subYears today (0 + j), rfl, rfl,
            (ord_subYears_succ today hv (0 + j)).2⟩
    · -- non-digit first character: ValueError before any request
      have : numberOfYears sd ed (some p) = .error .valueError := by
        rw [numberOfYears_period sd ed p hpne]
        simp [hdig]
      unfold get_timeseries_of_exchange_rates at hr
      rw [this] at hr
      exact absurd hr (by simp)
  · -- explicit mode
    rcases H with h | ⟨s, e, hsv, hev, hs1, hs9, he1, he9, rfl, rfl, hps, hpe⟩
    · exact absurd h hper
    have hperF : pyTruthy period = false := by
      cases hpt : pyTruthy period
      · rfl
      · exact absurd hpt hper
    have hsne := fmtDate_ne_empty s
    have hene := fmtDate_ne_empty e
    by_cases hn : pyYearDiff e s ≤ 0
    · rw [gts_explicit_fast api today _ _ period base symbols s e hsne hene hperF hps hpe hn,
        retrieve_single_log] at hr
      simp only [List.nil_append, List.mem_singleton] at hr
      subst hr
      exact ⟨s, e, rfl, rfl, ord_le_of_yearDiff_nonpos s e hsv hev hn⟩
    · have hd1 : 1 ≤ pyYearDiff e s := by omega
      rw [gts_explicit_multi api today _ _ period base symbols s e hsne hene hperF
        hps hpe hd1] at hr
      have hr' := mem_match_multi _ r hr
      rcases multiLoop_log_sub api _ base symbols _ 0 [] [] r hr' with h | ⟨j, hj, rfl⟩
      · exact absurd h (by simp)
      · have hyd := pyYearDiff_le_yearSub s e hsv hev hd1
        have hjb : (j : Int) + 1 ≤ pyYearDiff e s + 1 := by omega
        by_cases hcl : pyStrLt (fmtDate (subYears e (0 + j + 1))) (fmtDate s) = true
        · refine ⟨s, subYears e (0 + j), ?_, ?_, ?_⟩
          · show some (windowAtExplicit e (fmtDate s) (0 + j)).1 = _
            simp only [windowAtExplicit, hcl, if_true]
          · rfl
          · have hsubv : (subYears e (0 + j + 1)).Valid := subYears_valid e hev (0 + j + 1)
            have hy0 : (0 : Int) ≤ (subYears e (0 + j + 1)).year := by
              show (0 : Int) ≤ e.year - ((0 + j + 1 : Nat) : Int)
              push_cast
              omega
            have hy9 : (subYears e (0 + j + 1)).year ≤ 9999 := by
              show e.year - ((0 + j + 1 : Nat) : Int) ≤ 9999
              push_cast
              omega
            have hblt : Date.blt (subYears e (0 + j + 1)) s = true :=
              blt_of_pyStrLt_fmt _ _ hsubv hsv hy0 hy9 (by omega) (by omega) hcl
            have hlt := ordDate_lt_of_blt _ _ hsubv hsv hblt
            have hbound := (ord_subYears_succ e hev (0 + j)).2
            omega
        · refine ⟨subYears e (0 + j + 1), subYears e (0 + j), ?_, rfl,
            (ord_subYears_succ e hev (0 + j)).2⟩
          show some (windowAtExplicit e (fmtDate s) (0 + j)).1 = _
          simp only [windowAtExplicit, hcl, if_false]
          simp [hcl]

theorem claim_C5_witness :
    ∃ ds de : Date,
      (⟨some "2019-03-01", some "2019-03-01", none, none⟩ : TSRequest).start_date
        = some (fmtDate ds) ∧
      (⟨some "2019-03-01", some "2019-03-01", none, none⟩ : TSRequest).end_date
        = some (fmtDate de) ∧
      ordDate de - ordDate ds ≤ 366 :=
  claim_C5_amended (fun _ => ⟨200, ⟨"", "", [], []⟩⟩ : TSApi Nat) ⟨2024, 2, 29⟩
    (some "2019-03-01") (some "2022-03-01") none none none (by decide)
    (Or.inr ⟨⟨2019, 3, 1⟩, ⟨2022, 3, 1⟩, by decide, by decide, by decide, by decide,
      by decide, by decide, by decide, by decide, by decide, by decide⟩)
    ⟨some "2019-03-01", some "2019-03-01", none, none⟩ (by decide)
